import Mathlib

/-!
Verification development for the PhishShield detection pipeline.

Python strings are modelled as lists of characters (one element per code
point, matching Python indexing and slicing).  Machine integers are `Int`
and `Nat`.  Pure Python functions become Lean functions; the stateful
reputation cache is threaded explicitly.  External collaborators, which
are the Python `re` engine for declarative regex patterns, `httpx`, and
the wall clock, are passed in as explicit parameters.
-/

namespace PhishShield

/-! ## Python string primitives -/

/-- A Python string: one list element per code point. -/
abbrev PyStr := List Char

/-- Embed a Lean string literal as a `PyStr`. -/
def pystr (s : String) : PyStr := s.data

/-- The one-to-one part of the Unicode lowercase mapping, restricted to the
ASCII range (all characters appearing in the repository and its rule ids are
ASCII apart from the zero-width set and the U+0130 special case below; other
one-to-one mappings are modelled as the identity). -/
def pyCharLowerSimple (c : Char) : Char :=
  if 65 ≤ c.toNat ∧ c.toNat ≤ 90 then Char.ofNat (c.toNat + 32) else c

/-- Python `str.lower` applies the Unicode full lowercase mapping per
character.  The only code point with an unconditional multi-character
lowercase mapping in SpecialCasing.txt is U+0130 (LATIN CAPITAL LETTER I
WITH DOT ABOVE), which CPython lowercases to the two code points
U+0069 U+0307.  Every other code point maps to exactly one code point. -/
def pyCharLower (c : Char) : List Char :=
  if c = Char.ofNat 0x130 then [Char.ofNat 0x69, Char.ofNat 0x307]
  else [pyCharLowerSimple c]

/-- Python `str.lower` on a whole string. -/
def pyLower (s : PyStr) : PyStr := (s.map pyCharLower).flatten

/-- Python `str.strip()` whitespace set (ASCII part; the inputs stripped in
this repository carry only ASCII whitespace). -/
def isPyWhitespace (c : Char) : Bool :=
  c = ' ' || c = '\t' || c = '\n' || c = '\r' || c = Char.ofNat 11 || c = Char.ofNat 12

/-- Drop characters satisfying `p` from the right end (Python while-loop
`while s and s[-1] in set: s = s[:-1]`). -/
def dropRightWhileP (p : Char → Bool) (s : PyStr) : PyStr :=
  (s.reverse.dropWhile p).reverse

/-- Python `str.strip()` with no argument: trim whitespace on both ends. -/
def pyStripWS (s : PyStr) : PyStr :=
  dropRightWhileP isPyWhitespace (s.dropWhile isPyWhitespace)

/-- Python `str.strip(chars)`: trim characters of the given set on both ends. -/
def pyStripChars (set : List Char) (s : PyStr) : PyStr :=
  dropRightWhileP (fun c => set.contains c) (s.dropWhile (fun c => set.contains c))

/-- Python slice `s[a:b]` for nonnegative bounds (clamping semantics). -/
def pySlice (s : PyStr) (a b : Nat) : PyStr := (s.take b).drop a

/-- Does `needle` occur in `haystack` starting exactly at index `i`? -/
def occursAt (haystack needle : PyStr) (i : Nat) : Bool :=
  needle.isPrefixOf (haystack.drop i)

/-- Python `haystack.find(needle, start)` for a nonempty needle: the least
index `i ≥ start` where the needle occurs, `none` standing for -1. -/
def strFindFrom (haystack needle : PyStr) (start : Nat) : Option Nat :=
  (List.range (haystack.length + 1)).find?
    (fun i => decide (start ≤ i) && occursAt haystack needle i)

/-- Python `haystack.find(needle)` (search from index 0). -/
def strFind (haystack needle : PyStr) : Option Nat := strFindFrom haystack needle 0

/-- Python `a in b` substring test. -/
def strContains (haystack needle : PyStr) : Bool := (strFind haystack needle).isSome

/-- Python `s.startswith(p)` (also used for the lowered scheme test). -/
def startsWith (s p : PyStr) : Bool := p.isPrefixOf s

/-! ## app/utils/text_norm.py -/

/-- The `_ZERO_WIDTH` set: U+200B, U+200C, U+200D, U+FEFF. -/
def isZeroWidth (c : Char) : Bool :=
  c = Char.ofNat 0x200B || c = Char.ofNat 0x200C ||
  c = Char.ofNat 0x200D || c = Char.ofNat 0xFEFF

/-- Source `normalize_for_matching`: replace each zero-width character with a space,
join, then lowercase the joined string with Python `str.lower`. -/
def normalize_for_matching (text : PyStr) : PyStr :=
  if text = [] then []
  else pyLower (text.map (fun ch => if isZeroWidth ch then ' ' else ch))

/-! ## app/core/types.py -/

/-- Source `Severity` enum. -/
inductive Severity where
  | low
  | medium
  | high
deriving DecidableEq, Repr

/-- Source `Action` enum. -/
inductive Action where
  | allow
  | verify_out_of_band
  | report
  | block
deriving DecidableEq, Repr

/-- Source `PatternType` enum (also reused for `Evidence.kind`, whose Python type is
the literal set "keyword" | "regex"). -/
inductive PatternType where
  | keyword
  | regex
deriving DecidableEq, Repr

/-- Source `RulePattern`; the Python field `type` is called `type_` here. -/
structure RulePattern where
  type_ : PatternType
  value : PyStr
  flags : Option PyStr := none
  label : Option PyStr := none
deriving DecidableEq, Repr

/-- The `match` literal of `RuleWhen` ("any" | "all"). -/
inductive MatchMode where
  | any
  | all
deriving DecidableEq, Repr

/-- Source `RuleWhen` after pydantic coercion (single strings already coerced to
one-element lists by the `field_validator`s). The Python field `match` is
called `matchMode` here because `match` is reserved in Lean. -/
structure RuleWhen where
  matchMode : MatchMode := MatchMode.any
  any_keywords : List PyStr := []
  regex : List PyStr := []
  patterns : List RulePattern := []
deriving DecidableEq, Repr

/-- Source `Rule` (validated). -/
structure Rule where
  id : PyStr
  title : PyStr
  weight : Int
  severity : Severity
  when : RuleWhen
  explain : PyStr
  action : Action
  tags : List PyStr := []
  enabled : Bool := true
deriving DecidableEq, Repr

/-- Source `Evidence`; the Python fields `match` and `end` are called `matched` and
`stop` here because both are reserved words in Lean. -/
structure Evidence where
  kind : PatternType
  pattern : PyStr
  matched : PyStr
  start : Nat
  stop : Nat
  snippet : PyStr
  label : Option PyStr := none
deriving DecidableEq, Repr

/-- Source `RuleHit`. -/
structure RuleHit where
  rule_id : PyStr
  title : PyStr
  weight : Int
  severity : Severity
  action : Action
  explain : PyStr
  tags : List PyStr := []
  evidence : List Evidence := []
deriving DecidableEq, Repr

/-- Source `TextHighlight`; the Python field `end` is called `stop`. -/
structure TextHighlight where
  start : Nat
  stop : Nat
  rule_id : PyStr
  label : PyStr
deriving DecidableEq, Repr

/-- Source `AnalysisResult`. -/
structure AnalysisResult where
  score : Int
  severity : Severity
  action : Action
  recommendations : List PyStr := []
  hits : List RuleHit := []
  highlights : List TextHighlight := []

/-! ## app/core/scoring.py -/

/-- Source `normalize_score`: `max(0, min(100, int(round(100 * (1 - exp(-raw/35))))))`
with `raw` first clamped to `max(0, raw)`.  The Python float arithmetic is
modelled over the reals; Python round-half-even and Mathlib round-half-up
agree away from exact half-integers, and `100 * (1 - exp(-n / 35))` is never
a half-integer for integer `n` (it is irrational for `n ≠ 0`). -/
noncomputable def normalize_score (raw_points : Int) : Int :=
  max 0 (min 100
    (round ((100 : ℝ) * (1 - Real.exp (-((max 0 raw_points : Int) : ℝ) / 35)))))

/-- Source `severity_from_score`. -/
def severity_from_score (score : Int) : Severity :=
  if score ≥ 70 then Severity.high
  else if score ≥ 30 then Severity.medium
  else Severity.low

/-- Source `_ACTION_PRIORITY`. -/
def actionPriority : Action → Nat
  | Action.allow => 0
  | Action.report => 1
  | Action.verify_out_of_band => 2
  | Action.block => 3

/-- Source `_SEVERITY_ORDER`. -/
def severityOrder : Severity → Nat
  | Severity.low => 0
  | Severity.medium => 1
  | Severity.high => 2

/-- The per-severity baseline of `choose_action`. -/
def baseAction : Severity → Action
  | Severity.low => Action.allow
  | Severity.medium => Action.verify_out_of_band
  | Severity.high => Action.block

/-- The escalation loop of `choose_action`. -/
def strongestAction (base : Action) : List RuleHit → Action
  | [] => base
  | h :: hs =>
      strongestAction
        (if actionPriority h.action > actionPriority base then h.action else base) hs

/-- Source `choose_action`: baseline by severity, escalated by the strongest hit
action; the trailing baseline guard of the source is kept verbatim. -/
def choose_action (score_severity : Severity) (hits : List RuleHit) : Action :=
  let base := baseAction score_severity
  let top := strongestAction base hits
  if actionPriority top ≥ actionPriority base then top else base

/-- Source `recommendations`. -/
def recommendations (action : Action) (_severity : Severity) : List PyStr :=
  if action = Action.block then [pystr ("block"), pystr ("report")]
  else if action = Action.verify_out_of_band then
    [pystr ("verify_out_of_band"), pystr ("report_if_confirmed")]
  else if action = Action.report then [pystr ("report"), pystr ("educate_user")]
  else [pystr ("allow"), pystr ("educate_user")]

/-- Key used by the highlight dedup set: `(ev.start, ev.end, h.rule_id)`. -/
abbrev HLKey := Nat × Nat × PyStr

/-- Inner loop of `build_highlights` over the evidence of one hit. -/
def hlAddEvidence (rid : PyStr) (title : PyStr) :
    List Evidence → List HLKey × List TextHighlight → List HLKey × List TextHighlight
  | [], st => st
  | ev :: rest, (seen, out) =>
      let key : HLKey := (ev.start, ev.stop, rid)
      if seen.contains key then hlAddEvidence rid title rest (seen, out)
      else
        hlAddEvidence rid title rest
          (key :: seen, out ++ [{ start := ev.start, stop := ev.stop,
                                  rule_id := rid, label := title }])

/-- Outer loop of `build_highlights` over the hits. -/
def hlAddHits : List RuleHit → List HLKey × List TextHighlight → List HLKey × List TextHighlight
  | [], st => st
  | h :: hs, st => hlAddHits hs (hlAddEvidence h.rule_id h.title h.evidence st)

/-- The `(start, end)` sort key comparison of `build_highlights`, as a
boolean total preorder. -/
def hlLE (a b : TextHighlight) : Bool :=
  a.start < b.start || (a.start = b.start && a.stop ≤ b.stop)

/-- Stable insertion into a sorted list (later elements placed after equal
keys, matching the stability of the Python sort). -/
def stableInsert (le : TextHighlight → TextHighlight → Bool) (x : TextHighlight) :
    List TextHighlight → List TextHighlight
  | [] => [x]
  | y :: ys => if le y x then y :: stableInsert le x ys else x :: y :: ys

/-- Stable sort (Python `list.sort` is stable; any stable sort computes the
same output list). -/
def stableSort (le : TextHighlight → TextHighlight → Bool)
    (l : List TextHighlight) : List TextHighlight :=
  l.foldl (fun acc x => stableInsert le x acc) []

/-- Source `build_highlights`: dedup by `(start, end, rule_id)` preserving first
appearance, then sort by `(start, end)` ascending. -/
def build_highlights (hits : List RuleHit) : List TextHighlight :=
  stableSort hlLE (hlAddHits hits ([], [])).2

/-- One Python dict assignment `unique[h.rule_id] = h`: replace in place when
the key exists (keeping its position), append otherwise. -/
def upsertHit (acc : List RuleHit) (h : RuleHit) : List RuleHit :=
  if acc.any (fun x => x.rule_id = h.rule_id) then
    acc.map (fun x => if x.rule_id = h.rule_id then h else x)
  else acc ++ [h]

/-- The dedup dict of `score_to_result`, read back in insertion order of
first occurrence (Python dicts preserve that order). -/
def dedupByRuleId (hits : List RuleHit) : List RuleHit :=
  hits.foldl upsertHit []

/-- Source `_max_severity`. -/
def _max_severity (hits : List RuleHit) : Severity :=
  hits.foldl
    (fun top h => if severityOrder h.severity > severityOrder top then h.severity else top)
    Severity.low

/-- Source `score_to_result`. -/
noncomputable def score_to_result (hits : List RuleHit) : AnalysisResult :=
  let unique_hits := dedupByRuleId hits
  let raw_points : Int := (unique_hits.map RuleHit.weight).sum
  let score := normalize_score raw_points
  let sev_by_score := severity_from_score score
  let sev_by_hits := _max_severity unique_hits
  let sev :=
    if severityOrder sev_by_hits > severityOrder sev_by_score then sev_by_hits
    else sev_by_score
  let act := choose_action sev unique_hits
  { score := score
    severity := sev
    action := act
    recommendations := recommendations act sev
    hits := unique_hits
    highlights := build_highlights unique_hits }

/-! ## app/services/cache.py -/

/-- Source `ReputationResult` (dataclass in app/services/url_reputation.py). -/
structure ReputationResult where
  domain : PyStr
  malicious : Int
  suspicious : Int
  harmless : Int
  undetected : Int
deriving DecidableEq, Repr

/-- Source `_Entry` of the TTL cache.  The cache stores reputation results or the
cached-failure marker `None`; `value := none` models a stored `None`. -/
structure CacheEntry where
  value : Option ReputationResult
  expiresAt : Nat
deriving DecidableEq, Repr

/-- Source `TTLCache` state.  `data` keeps the Python dict as an association list in
insertion order.  The wall clock (`time.time()`) is passed to each operation
as an explicit `now`. -/
structure TTLCache where
  ttl : Nat
  maxItems : Nat
  data : List (PyStr × CacheEntry)
deriving DecidableEq, Repr

/-- Source `TTLCache.__init__` with the source clamps `max(1, ...)`, `max(50, ...)`. -/
def mkTTLCache (ttl_seconds max_items : Int) : TTLCache :=
  { ttl := (max 1 ttl_seconds).toNat, maxItems := (max 50 max_items).toNat, data := [] }

/-- Source `self._data.get(key)`. -/
def cacheLookup (data : List (PyStr × CacheEntry)) (key : PyStr) : Option CacheEntry :=
  (data.find? (fun kv => kv.1 = key)).map (fun kv => kv.2)

/-- Source `self._data.pop(key, None)`: drop the key, keeping the order of the rest. -/
def cacheRemove (data : List (PyStr × CacheEntry)) (key : PyStr) :
    List (PyStr × CacheEntry) :=
  data.filter (fun kv => kv.1 ≠ key)

/-- Source `TTLCache.get`: expired entries are popped; a hit returns the stored
value (which is `none` both for a missing key and for a stored `None`). -/
def TTLCache.get (c : TTLCache) (now : Nat) (key : PyStr) :
    Option ReputationResult × TTLCache :=
  match cacheLookup c.data key with
  | none => (none, c)
  | some ent =>
      if ent.expiresAt ≤ now then (none, { c with data := cacheRemove c.data key })
      else (ent.value, c)

/-- Source `TTLCache._purge`: drop expired entries, then drop the oldest keys in
insertion order until at most `target` remain. -/
def TTLCache.purge (c : TTLCache) (now : Nat) (target : Nat) : TTLCache :=
  let live := c.data.filter (fun kv => ¬ (kv.2.expiresAt ≤ now))
  if live.length ≤ target then { c with data := live }
  else { c with data := live.drop (live.length - target) }

/-- Source `TTLCache.set`: purge when full, then Python dict assignment (update in
place when the key exists, append otherwise). -/
def TTLCache.set (c : TTLCache) (now : Nat) (key : PyStr)
    (value : Option ReputationResult) : TTLCache :=
  let c1 := if c.data.length ≥ c.maxItems then c.purge now (c.maxItems / 2) else c
  let ent : CacheEntry := { value := value, expiresAt := now + c1.ttl }
  if (cacheLookup c1.data key).isSome then
    { c1 with data := c1.data.map (fun kv => if kv.1 = key then (kv.1, ent) else kv) }
  else { c1 with data := c1.data ++ [(key, ent)] }

/-! ## app/services/url_reputation.py -/

/-- Outcome of the external `httpx` GET: an exception (network error,
non-2xx status via `raise_for_status`, bad body), a 404, or a 2xx with the
parsed `last_analysis_stats` counters (`int(... or 0)` defaults applied). -/
inductive NetOutcome where
  | raises
  | notFound
  | ok (malicious suspicious harmless undetected : Int)
deriving DecidableEq, Repr

/-- The network collaborator: outcome of one GET for a given URL. -/
abbrev Network := PyStr → NetOutcome

/-- Source `UrlReputationService` state.  `enabled` is computed at construction. -/
structure UrlReputationService where
  api_key : PyStr
  enabled : Bool
  cache : TTLCache
deriving DecidableEq, Repr

/-- Source `UrlReputationService.__init__` (the `VT_API_KEY` environment fallback is
folded into the `api_key` argument): `enabled = bool(api_key.strip())`. -/
def mkReputationService (api_key : PyStr) (cache : TTLCache) : UrlReputationService :=
  { api_key := api_key, enabled := !(pyStripWS api_key).isEmpty, cache := cache }

/-- Source `UrlReputationService.lookup_domain`, returning the result together with
the updated cache state. -/
def lookup_domain (svc : UrlReputationService) (net : Network) (now : Nat)
    (domain : PyStr) : Option ReputationResult × TTLCache :=
  let d := pyLower (pyStripWS domain)
  if d = [] ∨ svc.enabled = false then (none, svc.cache)
  else
    let cache_key := pystr ("vt:domain:") ++ d
    match svc.cache.get now cache_key with
    | (some cached, c1) => (some cached, c1)
    | (none, c1) =>
        let url := pystr ("https://www.virustotal.com/api/v3/domains/") ++ d
        match net url with
        | NetOutcome.raises => (none, c1.set now cache_key none)
        | NetOutcome.notFound => (none, c1.set now cache_key none)
        | NetOutcome.ok m s h u =>
            let res : ReputationResult :=
              { domain := d, malicious := m, suspicious := s,
                harmless := h, undetected := u }
            (some res, c1.set now cache_key (some res))

/-! ## app/core/extractors.py: helper predicates for context rules -/

/-- Source `_SHORTENER_DOMAINS`. -/
def _SHORTENER_DOMAINS : List PyStr :=
  [pystr ("bit.ly"), pystr ("t.co"), pystr ("tinyurl.com"), pystr ("goo.gl"),
   pystr ("ow.ly"), pystr ("is.gd"), pystr ("buff.ly"), pystr ("cutt.ly"),
   pystr ("rebrand.ly"), pystr ("shorturl.at")]

/-- Source `is_shortener_domain`. -/
def is_shortener_domain (domain : PyStr) : Bool :=
  let d := pyLower (pyStripWS domain)
  let d := if startsWith d (pystr ("www.")) then d.drop 4 else d
  _SHORTENER_DOMAINS.contains d

/-- Source `is_punycode_domain`. -/
def is_punycode_domain (domain : PyStr) : Bool :=
  strContains (pyLower domain) (pystr ("xn--"))

/-- Source `subdomain_count`: labels of `domain.strip(".").lower()` that are
nonempty, counted after splitting on dots. -/
def subdomain_count (domain : PyStr) : Nat :=
  let d := pyLower (pyStripChars ['.'] domain)
  if d = [] then 0
  else ((d.splitOn '.').filter (fun p => p ≠ [])).length

/-! ## app/core/rule_engine.py -/

/-- Regex flags as booleans (the Python bitmask `IGNORECASE|MULTILINE|DOTALL`
carries no other information here). -/
structure ReFlags where
  ignorecase : Bool
  multiline : Bool
  dotall : Bool
deriving DecidableEq, Repr

/-- Source `_compile_flags`: `None` means the convenience default
`IGNORECASE|MULTILINE`; an explicit string enables only the listed flags,
unknown characters ignored, letters taken case-insensitively. -/
def _compile_flags : Option PyStr → ReFlags
  | none => { ignorecase := true, multiline := true, dotall := false }
  | some fl =>
      fl.foldl
        (fun v ch =>
          let c := pyCharLowerSimple ch
          if c = 'i' then { v with ignorecase := true }
          else if c = 'm' then { v with multiline := true }
          else if c = 's' then { v with dotall := true }
          else v)
        { ignorecase := false, multiline := false, dotall := false }

/-- A compiled regex is modelled by its observable behaviour: the span list
`[(m.start(), m.end()), ...]` that `finditer` yields on a given text
(`re` is an external library; `m.group(0)` equals `text[m.start():m.end()]`
by the library contract). -/
abbrev RegexMatcher := PyStr → List (Nat × Nat)

/-- Source `re.compile`: the external compiler, `none` modelling `re.error`. -/
abbrev ReCompile := PyStr → ReFlags → Option RegexMatcher

/-- Source `_CompiledPattern`. -/
structure CompiledPattern where
  raw : RulePattern
  kind : PatternType
  keyword : Option PyStr := none
  regex : Option RegexMatcher := none

/-- Source `_CompiledRule`. -/
structure CompiledRule where
  rule : Rule
  match_mode : MatchMode
  patterns : List CompiledPattern

/-- Source `RulePackError`, as a structured taxonomy of the `RulePackError`
messages raised in rule_engine.py (each constructor carries exactly the
data interpolated into the corresponding message). -/
inductive RulePackError where
  | notFound
  | parseFailed
  | notList
  | itemNotMapping (idx : Nat)
  | invalidSchema (idx : Nat) (id : Option PyStr)
  | invalidRegex (ruleId : PyStr) (pattern : PyStr)
  | noMatchers (ruleId : PyStr)
deriving DecidableEq, Repr

/-- Source `_snippet` with its default window of 48 (Nat subtraction gives the
`max(0, start - window)` clamp). -/
def _snippet (text : PyStr) (start stop : Nat) : PyStr :=
  let left := start - 48
  let right := min text.length (stop + 48)
  let pre : PyStr := if left > 0 then [Char.ofNat 0x2026] else []
  let suf : PyStr := if right < text.length then [Char.ofNat 0x2026] else []
  pre ++ pySlice text left right ++ suf

/-- The `max_per_keyword` default of `_find_keyword`. -/
def max_per_keyword : Nat := 8

/-- The `max_per_regex` default of `_find_regex`. -/
def max_per_regex : Nat := 10

/-- The while loop of `_find_keyword`.  `remaining` is `max_per_keyword`
minus the source counter `count`; the break after the eighth append is the
recursion bottoming out at zero. -/
def findKeywordFrom (text haystack needle : PyStr) (label : Option PyStr)
    (pattern : PyStr) : Nat → Nat → List Evidence
  | 0, _ => []
  | remaining + 1, start =>
      match strFindFrom haystack needle start with
      | none => []
      | some idx =>
          let stop := idx + needle.length
          let ev : Evidence :=
            { kind := PatternType.keyword, pattern := pattern,
              matched := pySlice text idx stop, start := idx, stop := stop,
              snippet := _snippet text idx stop, label := label }
          ev :: findKeywordFrom text haystack needle label pattern remaining stop

/-- Source `_find_keyword`. -/
def _find_keyword (text haystack needle : PyStr) (label : Option PyStr)
    (pattern : PyStr) : List Evidence :=
  if needle = [] then []
  else findKeywordFrom text haystack needle label pattern max_per_keyword 0

/-- The for loop of `_find_regex` over the spans `finditer` yields:
zero-length matches are skipped, at most `remaining` evidence items are
appended. -/
def findRegexFrom (text : PyStr) (label : Option PyStr) (pattern : PyStr) :
    List (Nat × Nat) → Nat → List Evidence
  | _, 0 => []
  | [], _ => []
  | (s, e) :: rest, remaining + 1 =>
      if s = e then findRegexFrom text label pattern rest (remaining + 1)
      else
        { kind := PatternType.regex, pattern := pattern,
          matched := pySlice text s e, start := s, stop := e,
          snippet := _snippet text s e, label := label : Evidence }
          :: findRegexFrom text label pattern rest remaining

/-- Source `_find_regex`. -/
def _find_regex (text : PyStr) (rx : RegexMatcher) (label : Option PyStr)
    (pattern : PyStr) : List Evidence :=
  findRegexFrom text label pattern (rx text) max_per_regex

/-- Source `_match_one`.  The `none` branches are the source assertions (a compiled
keyword pattern always carries its needle, a compiled regex its matcher). -/
def _match_one (cp : CompiledPattern) (text haystack : PyStr) : List Evidence :=
  match cp.kind with
  | PatternType.keyword =>
      match cp.keyword with
      | some needle => _find_keyword text haystack needle cp.raw.label cp.raw.value
      | none => []
  | PatternType.regex =>
      match cp.regex with
      | some rx => _find_regex text rx cp.raw.label cp.raw.value
      | none => []

/-- The `all` branch of `RuleEngine.match`: every pattern must match, one
evidence item (the first occurrence) is kept per pattern, the loop breaks
with `ok = False` on the first pattern without a match and breaks with
`ok = True` as soon as the per-rule evidence cap is reached. -/
def allModeLoop (maxEv : Nat) (text haystack : PyStr) :
    List CompiledPattern → List Evidence → Option (List Evidence)
  | [], acc => some acc
  | cp :: rest, acc =>
      match _match_one cp text haystack with
      | [] => none
      | e :: _ =>
          let acc' := acc ++ [e]
          if acc'.length ≥ maxEv then some acc'
          else allModeLoop maxEv text haystack rest acc'

/-- The inner evidence loop of the `any` branch (append until the per-rule
cap is reached). -/
def addEvidenceUpTo (maxEv : Nat) : List Evidence → List Evidence → List Evidence
  | acc, [] => acc
  | acc, e :: es =>
      let acc' := acc ++ [e]
      if acc'.length ≥ maxEv then acc' else addEvidenceUpTo maxEv acc' es

/-- The `any` branch of `RuleEngine.match`. -/
def anyModeLoop (maxEv : Nat) (text haystack : PyStr) :
    List CompiledPattern → List Evidence → List Evidence
  | [], acc => acc
  | cp :: rest, acc =>
      let acc' := addEvidenceUpTo maxEv acc (_match_one cp text haystack)
      if acc'.length ≥ maxEv then acc' else anyModeLoop maxEv text haystack rest acc'

/-- Source `_to_hit`. -/
def _to_hit (rule : Rule) (evidence : List Evidence) : RuleHit :=
  { rule_id := rule.id, title := rule.title, weight := rule.weight,
    severity := rule.severity, action := rule.action, explain := rule.explain,
    tags := rule.tags, evidence := evidence }

/-- One iteration of the YAML-rule loop of `RuleEngine.match`: the hit the
rule contributes, if any. -/
def matchCompiledRule (maxEv : Nat) (text haystack : PyStr)
    (cr : CompiledRule) : Option RuleHit :=
  match cr.match_mode with
  | MatchMode.all =>
      match allModeLoop maxEv text haystack cr.patterns [] with
      | some evidence =>
          if evidence = [] then none else some (_to_hit cr.rule evidence)
      | none => none
  | MatchMode.any =>
      let evidence := anyModeLoop maxEv text haystack cr.patterns []
      if evidence = [] then none else some (_to_hit cr.rule evidence)

/-! ## app/core/context.py -/

/-- Source `AnalysisContext`. -/
structure AnalysisContext where
  urls : List PyStr
  domains : List PyStr
  emails : List PyStr
  phones : List PyStr
deriving DecidableEq, Repr

/-! ## Context rules -/

/-- One candidate loop of `_evidence_for_any_token`: first token whose
lowercase form occurs in the normalized haystack gives the evidence; the
span end is `idx + len(token)` (length of the original token). -/
def evidenceForTokens (text haystack : PyStr) (kind : PatternType)
    (patternName labelName : PyStr) : List PyStr → Option Evidence
  | [] => none
  | t :: ts =>
      if t = [] then evidenceForTokens text haystack kind patternName labelName ts
      else
        match strFind haystack (pyLower t) with
        | none => evidenceForTokens text haystack kind patternName labelName ts
        | some idx =>
            let stop := idx + t.length
            some
              { kind := kind, pattern := patternName,
                matched := pySlice text idx stop, start := idx, stop := stop,
                snippet := _snippet text idx stop, label := some labelName }

/-- Source `_evidence_for_any_token`: prefer a URL span, fall back to a domain span. -/
def _evidence_for_any_token (text haystack : PyStr) (urls domains : List PyStr)
    (kind : PatternType) : Option Evidence :=
  match evidenceForTokens text haystack kind (pystr ("context:url")) (pystr ("url")) urls with
  | some ev => some ev
  | none =>
      evidenceForTokens text haystack kind (pystr ("context:domain")) (pystr ("domain")) domains

/-- The reputation loop of `_context_hits`: look up every extracted domain
(threading the cache), keeping results with a malicious or suspicious count. -/
def reputationScan (net : Network) (now : Nat) :
    List PyStr → UrlReputationService → List ReputationResult × UrlReputationService
  | [], svc => ([], svc)
  | d :: ds, svc =>
      let c' := (lookup_domain svc net now d).2
      let rest := (reputationScan net now ds { svc with cache := c' }).1
      let svcF := (reputationScan net now ds { svc with cache := c' }).2
      match (lookup_domain svc net now d).1 with
      | some r =>
          if r.malicious > 0 ∨ r.suspicious > 0 then (r :: rest, svcF) else (rest, svcF)
      | none => (rest, svcF)

/-- Source `sorted(flagged, key=lambda x: (x.malicious, x.suspicious), reverse=True)[0]`:
the first element attaining the lexicographic maximum (Python sorting is
stable, so ties keep the earlier element). -/
def topFlagged (r0 : ReputationResult) (rs : List ReputationResult) : ReputationResult :=
  rs.foldl
    (fun best r =>
      if best.malicious < r.malicious ∨
          (best.malicious = r.malicious ∧ best.suspicious < r.suspicious) then r
      else best)
    r0

/-- The `CTX-URL-SHORTENER` hit. -/
def shortenerHit (ev : Evidence) : RuleHit :=
  { rule_id := pystr ("CTX-URL-SHORTENER"), title := pystr ("URL shortener detected"),
    weight := 14, severity := Severity.high, action := Action.block,
    explain := pystr ("Shortened URLs hide the real destination and are commonly used in phishing."),
    tags := [pystr ("links"), pystr ("context")], evidence := [ev] }

/-- The `CTX-URL-PUNYCODE` hit. -/
def punycodeHit (ev : Evidence) : RuleHit :=
  { rule_id := pystr ("CTX-URL-PUNYCODE"), title := pystr ("Punycode/IDN domain detected"),
    weight := 12, severity := Severity.high, action := Action.block,
    explain := pystr ("Punycode domains (xn--) can be used for lookalike attacks via international characters."),
    tags := [pystr ("links"), pystr ("context")], evidence := [ev] }

/-- The `CTX-URL-SUBDOMAINS` hit. -/
def subdomainsHit (ev : Evidence) : RuleHit :=
  { rule_id := pystr ("CTX-URL-SUBDOMAINS"), title := pystr ("Suspiciously deep subdomain chain"),
    weight := 10, severity := Severity.medium, action := Action.verify_out_of_band,
    explain := pystr ("Very deep subdomain chains are often used to impersonate trusted domains."),
    tags := [pystr ("links"), pystr ("context")], evidence := [ev] }

/-- The `CTX-URL-REPUTATION` hit (weight 25 when any malicious count is
positive, 18 otherwise). -/
def reputationHit (top : ReputationResult) (ev : Evidence) : RuleHit :=
  { rule_id := pystr ("CTX-URL-REPUTATION"), title := pystr ("Domain flagged by reputation service"),
    weight := if top.malicious > 0 then 25 else 18,
    severity := Severity.high, action := Action.block,
    explain := pystr ("External reputation service reports this domain as malicious/suspicious."),
    tags := [pystr ("links"), pystr ("intel"), pystr ("context")], evidence := [ev] }

/-- Source `_context_hits`.  The reputation collaborator state after the scan is
dropped, as in the source (the cache lives inside the engine object). -/
def _context_hits (svc : UrlReputationService) (net : Network) (now : Nat)
    (text haystack : PyStr) (ctx : AnalysisContext) : List RuleHit :=
  let shortener_domains := ctx.domains.filter is_shortener_domain
  let shortHits :=
    if shortener_domains = [] then []
    else
      match _evidence_for_any_token text haystack ctx.urls shortener_domains
          PatternType.keyword with
      | some ev => [shortenerHit ev]
      | none => []
  let puny_domains := ctx.domains.filter is_punycode_domain
  let punyHits :=
    if puny_domains = [] then []
    else
      match _evidence_for_any_token text haystack ctx.urls puny_domains
          PatternType.keyword with
      | some ev => [punycodeHit ev]
      | none => []
  let many_subdomains := ctx.domains.filter (fun d => subdomain_count d ≥ 5)
  let subHits :=
    if many_subdomains = [] then []
    else
      match _evidence_for_any_token text haystack ctx.urls many_subdomains
          PatternType.keyword with
      | some ev => [subdomainsHit ev]
      | none => []
  let repHits :=
    if svc.enabled then
      match (reputationScan net now ctx.domains svc).1 with
      | [] => []
      | f :: fs =>
          let top := topFlagged f fs
          match _evidence_for_any_token text haystack ctx.urls [top.domain]
              PatternType.keyword with
          | some ev => [reputationHit top ev]
          | none => []
    else []
  shortHits ++ punyHits ++ subHits ++ repHits

/-! ## Rule compilation and the engine -/

/-- The pattern-building and compilation loop of `_compile_rule` applied to
one `RulePattern`. -/
def compileOnePattern (rc : ReCompile) (ruleId : PyStr) (p : RulePattern) :
    Except RulePackError CompiledPattern :=
  match p.type_ with
  | PatternType.keyword =>
      Except.ok { raw := p, kind := PatternType.keyword, keyword := some (pyLower p.value) }
  | PatternType.regex =>
      match rc p.value (_compile_flags p.flags) with
      | some rx => Except.ok { raw := p, kind := PatternType.regex, regex := some rx }
      | none => Except.error (RulePackError.invalidRegex ruleId p.value)

/-- Compile a list of patterns, failing on the first bad regex. -/
def compilePatterns (rc : ReCompile) (ruleId : PyStr) :
    List RulePattern → Except RulePackError (List CompiledPattern)
  | [] => Except.ok []
  | p :: ps =>
      match compileOnePattern rc ruleId p with
      | Except.error e => Except.error e
      | Except.ok cp =>
          match compilePatterns rc ruleId ps with
          | Except.error e => Except.error e
          | Except.ok cps => Except.ok (cp :: cps)

/-- The effective pattern list of `_compile_rule`: stripped nonempty
keywords, stripped nonempty regex strings (both with their default labels),
then the explicit patterns. -/
def effectivePatterns (r : Rule) : List RulePattern :=
  (r.when.any_keywords.filterMap (fun kw =>
      if pyStripWS kw = [] then none
      else some { type_ := PatternType.keyword, value := pyStripWS kw,
                  flags := none, label := some (pystr ("keyword")) : RulePattern }))
    ++ (r.when.regex.filterMap (fun rg =>
      if pyStripWS rg = [] then none
      else some { type_ := PatternType.regex, value := pyStripWS rg,
                  flags := none, label := some (pystr ("regex")) : RulePattern }))
    ++ r.when.patterns

/-- Source `_compile_rule`: build the effective patterns, compile them (failing fast
on a bad regex), and reject a rule with zero effective patterns. -/
def _compile_rule (rc : ReCompile) (r : Rule) : Except RulePackError CompiledRule :=
  match compilePatterns rc r.id (effectivePatterns r) with
  | Except.error e => Except.error e
  | Except.ok [] => Except.error (RulePackError.noMatchers r.id)
  | Except.ok (cp :: cps) =>
      Except.ok { rule := r, match_mode := r.when.matchMode, patterns := cp :: cps }

/-- Source `RuleEngine` state after a successful `__init__`. -/
structure RuleEngine where
  rules : List Rule
  max_evidence_per_rule : Nat
  compiled : List CompiledRule
  reputation : UrlReputationService

/-- The compilation loop of `__init__` over the enabled rules. -/
def compileRules (rc : ReCompile) : List Rule → Except RulePackError (List CompiledRule)
  | [] => Except.ok []
  | r :: rs =>
      match _compile_rule rc r with
      | Except.error e => Except.error e
      | Except.ok cr =>
          match compileRules rc rs with
          | Except.error e => Except.error e
          | Except.ok crs => Except.ok (cr :: crs)

/-- Source `RuleEngine.__init__`: filter disabled rules, clamp the evidence cap with
`max(1, ...)`, compile eagerly (a compilation error aborts construction, so
no engine value exists).  The reputation service the source constructs from
the environment is passed in explicitly. -/
def RuleEngine.init (rc : ReCompile) (svc : UrlReputationService)
    (rules : List Rule) (max_evidence_per_rule : Int) : Except RulePackError RuleEngine :=
  match compileRules rc (rules.filter (fun r => r.enabled)) with
  | Except.error e => Except.error e
  | Except.ok compiled =>
      Except.ok
        { rules := rules.filter (fun r => r.enabled),
          max_evidence_per_rule := (max 1 max_evidence_per_rule).toNat,
          compiled := compiled, reputation := svc }

/-- Source `RuleEngine.match` (named `matchText` because `match` is reserved in
Lean): YAML-backed rules in order, then the context rules. -/
def RuleEngine.matchText (eng : RuleEngine) (net : Network) (now : Nat)
    (text : PyStr) (ctx : Option AnalysisContext) : List RuleHit :=
  if text = [] then []
  else
    let haystack := normalize_for_matching text
    let yamlHits :=
      eng.compiled.filterMap (matchCompiledRule eng.max_evidence_per_rule text haystack)
    yamlHits ++
      (match ctx with
       | none => []
       | some c => _context_hits eng.reputation net now text haystack c)

/-! ## The pydantic schema of app/core/types.py, applied to parsed YAML

A YAML scalar-or-list value destined for the coercing validators.  An
`Option` wrapping a raw field is `none` when the field is absent (or null);
a present value of an unconvertible YAML type also fails pydantic
validation but has no representation here — every representable failure
below is a schema-validation failure in the source as well. -/
inductive YamlStrings where
  | one (s : PyStr)
  | many (ss : List PyStr)
deriving DecidableEq, Repr

/-- The `_coerce_keywords` / `_coerce_regex` / `_coerce_tags` validators:
absent or null becomes `[]`, a single string becomes a one-element list. -/
def coerceStrings : Option YamlStrings → List PyStr
  | none => []
  | some (YamlStrings.one s) => [s]
  | some (YamlStrings.many ss) => ss

/-- A raw `RulePattern` mapping.  `extra` lists unknown field names
(`extra="forbid"`). -/
structure RawPattern where
  type_ : Option PyStr := none
  value : Option PyStr := none
  flags : Option PyStr := none
  label : Option PyStr := none
  extra : List PyStr := []
deriving DecidableEq, Repr

/-- Parse the `PatternType` enum. -/
def parsePatternType (s : PyStr) : Option PatternType :=
  if s = pystr ("keyword") then some PatternType.keyword
  else if s = pystr ("regex") then some PatternType.regex
  else none

/-- Validate one `RulePattern` record (`type` required enum, `value` required
with `min_length=1`, unknown fields rejected). -/
def validatePattern (p : RawPattern) : Option RulePattern := do
  guard (p.extra = [])
  let t ← p.type_
  let pt ← parsePatternType t
  let v ← p.value
  guard (1 ≤ v.length)
  some { type_ := pt, value := v, flags := p.flags, label := p.label }

/-- A raw `RuleWhen` mapping; the Python field `match` is `matchv`. -/
structure RawWhen where
  matchv : Option PyStr := none
  any_keywords : Option YamlStrings := none
  regex : Option YamlStrings := none
  patterns : Option (List RawPattern) := none
  extra : List PyStr := []
deriving DecidableEq, Repr

/-- The `match` literal: absent defaults to `"any"`, anything other than
`"any"`/`"all"` is rejected. -/
def parseMatchMode : Option PyStr → Option MatchMode
  | none => some MatchMode.any
  | some s =>
      if s = pystr ("any") then some MatchMode.any
      else if s = pystr ("all") then some MatchMode.all
      else none

/-- Validate a `RuleWhen` record. -/
def validateWhen (w : RawWhen) : Option RuleWhen := do
  guard (w.extra = [])
  let mode ← parseMatchMode w.matchv
  let pats ← (w.patterns.getD []).mapM validatePattern
  some { matchMode := mode, any_keywords := coerceStrings w.any_keywords,
         regex := coerceStrings w.regex, patterns := pats }

/-- A raw `Rule` mapping; the Python field `when` is `whenv`. -/
structure RawRule where
  id : Option PyStr := none
  title : Option PyStr := none
  weight : Option Int := none
  severity : Option PyStr := none
  whenv : Option RawWhen := none
  explain : Option PyStr := none
  action : Option PyStr := none
  tags : Option YamlStrings := none
  enabled : Option Bool := none
  extra : List PyStr := []
deriving DecidableEq, Repr

/-- Parse the `Severity` enum. -/
def parseSeverity (s : PyStr) : Option Severity :=
  if s = pystr ("low") then some Severity.low
  else if s = pystr ("medium") then some Severity.medium
  else if s = pystr ("high") then some Severity.high
  else none

/-- Parse the `Action` enum. -/
def parseAction (s : PyStr) : Option Action :=
  if s = pystr ("allow") then some Action.allow
  else if s = pystr ("verify_out_of_band") then some Action.verify_out_of_band
  else if s = pystr ("report") then some Action.report
  else if s = pystr ("block") then some Action.block
  else none

/-- Source `Rule.model_validate`: required fields, length and range bounds, enum
parsing, unknown-field rejection; the `_normalize_id` validator strips the
id after the length constraints pass, `enabled` defaults to true. -/
def model_validate (r : RawRule) : Option Rule := do
  guard (r.extra = [])
  let id ← r.id
  guard (3 ≤ id.length ∧ id.length ≤ 64)
  let title ← r.title
  guard (3 ≤ title.length ∧ title.length ≤ 200)
  let w ← r.weight
  guard (0 ≤ w ∧ w ≤ 100)
  let sevStr ← r.severity
  let sev ← parseSeverity sevStr
  let rawWhen ← r.whenv
  let whenR ← validateWhen rawWhen
  let explain ← r.explain
  guard (3 ≤ explain.length ∧ explain.length ≤ 2000)
  let actStr ← r.action
  let act ← parseAction actStr
  some { id := pyStripWS id, title := title, weight := w, severity := sev,
         when := whenR, explain := explain, action := act,
         tags := coerceStrings r.tags, enabled := r.enabled.getD true }

/-! ## `RuleEngine.from_yaml` -/

/-- One entry of the parsed YAML document: a mapping or something else. -/
inductive YamlItem where
  | dict (r : RawRule)
  | nonDict
deriving Repr

/-- The parsed YAML document: a top-level array or something else. -/
inductive YamlDoc where
  | list (items : List YamlItem)
  | nonList
deriving Repr

/-- The validation loop of `from_yaml`: fail on the first non-mapping entry
or schema-invalid record, naming its index (and the raw `id` field for
schema failures, per `item.get("id")`). -/
def validateItems (startIdx : Nat) : List YamlItem → Except RulePackError (List Rule)
  | [] => Except.ok []
  | YamlItem.nonDict :: _ => Except.error (RulePackError.itemNotMapping startIdx)
  | YamlItem.dict rr :: rest =>
      match model_validate rr with
      | none => Except.error (RulePackError.invalidSchema startIdx rr.id)
      | some r =>
          match validateItems (startIdx + 1) rest with
          | Except.error e => Except.error e
          | Except.ok rs => Except.ok (r :: rs)

/-- Source `RuleEngine.from_yaml`.  The filesystem read and the YAML parse are
external: `pathExists` models `path.exists()` and `parsed` the outcome of
`yaml.safe_load`.  The posterior regex re-check loop of the source is dead
code (`_compile_rule` already raised inside `__init__`) and has no residue
here. -/
def from_yaml (rc : ReCompile) (svc : UrlReputationService) (pathExists : Bool)
    (parsed : Except Unit YamlDoc) (max_evidence_per_rule : Int) :
    Except RulePackError RuleEngine :=
  if pathExists = false then Except.error RulePackError.notFound
  else
    match parsed with
    | Except.error _ => Except.error RulePackError.parseFailed
    | Except.ok YamlDoc.nonList => Except.error RulePackError.notList
    | Except.ok (YamlDoc.list items) =>
        match validateItems 0 items with
        | Except.error e => Except.error e
        | Except.ok rules => RuleEngine.init rc svc rules max_evidence_per_rule

/-! ## app/core/extractors.py: URL extraction -/

/-- Source `_WRAPPING_CHARS` (braces written by code point). -/
def _WRAPPING_CHARS : List Char :=
  ['"', '\'', '<', '>', '[', ']', '(', ')', Char.ofNat 123, Char.ofNat 125]

/-- Source `_TRAILING_PUNCT` (the last entry is U+2026 HORIZONTAL ELLIPSIS). -/
def _TRAILING_PUNCT : List Char :=
  ['.', ',', ';', ':', '!', '?', Char.ofNat 0x2026]

/-- Python regex `\w` (ASCII range; the texts of the claims are ASCII). -/
def isPyWordChar (c : Char) : Bool := c.isAlphanum || c = '_'

/-- The negated character class `[^\s<>\]]` of `_URL_RE`. -/
def isUrlStop (c : Char) : Bool := isPyWhitespace c || c = '<' || c = '>' || c = ']'

/-- Case-insensitive literal match at an index, as `(?i)` matches ASCII
letters. -/
def matchesCI (s : PyStr) (i : Nat) (lit : PyStr) : Bool :=
  ((s.drop i).take lit.length).map pyCharLowerSimple = lit

/-- One anchored attempt of `_URL_RE` = `(?i)\bhttps?://[^\s<>\]]+` at index
`i`: the word boundary before the `h`, the scheme literal (the optional `s`
resolved greedily exactly as the backtracking engine does), then a maximal
nonempty run of non-stop characters.  Returns the match end. -/
def urlMatchAt (s : PyStr) (i : Nat) : Option Nat :=
  let boundary :=
    match i with
    | 0 => true
    | k + 1 => !(isPyWordChar (s.getD k ' '))
  if !boundary then none
  else
    let plen :=
      if matchesCI s i (pystr ("https://")) then some 8
      else if matchesCI s i (pystr ("http://")) then some 7
      else none
    match plen with
    | none => none
    | some p =>
        let run := ((s.drop (i + p)).takeWhile (fun c => !(isUrlStop c))).length
        if run = 0 then none else some (i + p + run)

/-- The scan loop of `finditer`: leftmost matches, search resuming at each
match end.  Fuel decreases once per examined index. -/
def scanUrlsFrom (s : PyStr) : Nat → Nat → List (Nat × Nat)
  | 0, _ => []
  | fuel + 1, i =>
      if s.length ≤ i then []
      else
        match urlMatchAt s i with
        | some j => (i, j) :: scanUrlsFrom s fuel j
        | none => scanUrlsFrom s fuel (i + 1)

/-- Source `_URL_RE.finditer(text)` as span list. -/
def scanUrls (s : PyStr) : List (Nat × Nat) := scanUrlsFrom s (s.length + 1) 0

/-- Source `_strip_balanced_wrappers`: remove one level of balanced wrappers and
strip whitespace.  At most one pair can match (the left characters are
pairwise distinct), so the iteration order of the Python set literal does
not matter. -/
def _strip_balanced_wrappers (s : PyStr) : PyStr :=
  if s.length < 2 then s
  else
    let pairs : List (Char × Char) :=
      [('(', ')'), ('[', ']'), (Char.ofNat 123, Char.ofNat 125),
       ('<', '>'), ('"', '"'), ('\'', '\'')]
    match pairs.find? (fun lr => s.headD ' ' = lr.1 && s.getLast? = some lr.2) with
    | some _ => pyStripWS (pySlice s 1 (s.length - 1))
    | none => s

/-- The part of `netloc` after the last `@` (`rpartition`). -/
def afterLastChar (c : Char) (s : PyStr) : PyStr :=
  (s.reverse.takeWhile (fun x => x ≠ c)).reverse

/-- Source `urllib.parse.urlsplit(s).netloc` for a string already known to start
with `http://` or `https://` case-insensitively (no other scheme reaches
this call; bracketed IPv6 hosts, the only input making `urlsplit` raise,
do not occur). -/
def urlsplitNetloc (s : PyStr) : PyStr :=
  let low := pyLower s
  let rest := if startsWith low (pystr ("https://")) then s.drop 8 else s.drop 7
  rest.takeWhile (fun c => c ≠ '/' ∧ c ≠ '?' ∧ c ≠ '#')

/-- Source `urllib.parse.urlsplit(s).hostname` under the same assumptions: strip
userinfo at the last `@`, take up to the first `:` (the port), lowercase;
empty for a URL without the http scheme (no `//` authority). -/
def urlsplitHostname (s : PyStr) : PyStr :=
  let low := pyLower s
  if startsWith low (pystr ("http://")) ∨ startsWith low (pystr ("https://")) then
    pyLower ((afterLastChar '@' (urlsplitNetloc s)).takeWhile (fun c => c ≠ ':'))
  else []

/-- Source `_clean_url`. -/
def _clean_url (url : PyStr) : PyStr :=
  if url = [] then []
  else
    let s := pyStripWS url
    let s := pyStripChars _WRAPPING_CHARS s
    let s := dropRightWhileP (fun c => _TRAILING_PUNCT.contains c) s
    let s := dropRightWhileP (fun c => _WRAPPING_CHARS.contains c) s
    let s := _strip_balanced_wrappers s
    if !(startsWith (pyLower s) (pystr ("http://")) ||
         startsWith (pyLower s) (pystr ("https://"))) then []
    else if urlsplitNetloc s = [] then []
    else s

/-- The dedup-in-appearance-order fold shared by the extractors. -/
def dedupAppend (acc : List PyStr) (x : PyStr) : List PyStr :=
  if acc.contains x then acc else acc ++ [x]

/-- Source `extract_urls`. -/
def extract_urls (text : PyStr) : List PyStr :=
  if text = [] then []
  else
    ((scanUrls text).map (fun se => pySlice text se.1 se.2)).foldl
      (fun acc raw =>
        let url := _clean_url raw
        if url = [] then acc else dedupAppend acc url)
      []

/-- Source `domain_from_url`. -/
def domain_from_url (url : PyStr) : PyStr :=
  if url = [] then []
  else
    let host := pyLower (pyStripWS (urlsplitHostname url))
    if host = [] then []
    else
      let host := if startsWith host (pystr ("www.")) then host.drop 4 else host
      dropRightWhileP (fun c => c = '.') host

/-- Source `extract_domains`. -/
def extract_domains (urls : List PyStr) : List PyStr :=
  urls.foldl
    (fun acc u =>
      let d := domain_from_url u
      if d = [] then acc else dedupAppend acc d)
    []

/-- Source `extract_emails`, with `_EMAIL_RE.finditer` as an abstract span finder
(the `re` engine is external; only the early return and the
lowercase-and-dedup pipeline are repository code). -/
def extract_emails (emailFinder : RegexMatcher) (text : PyStr) : List PyStr :=
  if text = [] then []
  else
    ((emailFinder text).map (fun se => pyLower (pySlice text se.1 se.2))).foldl
      dedupAppend []

/-- Source `_normalize_phone` (`\D` removal modelled on ASCII digits). -/
def _normalize_phone (s : PyStr) : PyStr :=
  if s = [] then []
  else
    let s := pyStripWS s
    let plus := s.headD ' ' = '+'
    let digits := s.filter (fun c => c.isDigit)
    if digits.length < 9 then []
    else (if plus then ['+'] else []) ++ digits

/-- Source `extract_phones`, with `_PHONE_RE.finditer` abstract like the email
finder. -/
def extract_phones (phoneFinder : RegexMatcher) (text : PyStr) : List PyStr :=
  if text = [] then []
  else
    ((phoneFinder text).map (fun se => pyStripWS (pySlice text se.1 se.2))).foldl
      (fun acc raw =>
        let norm := _normalize_phone raw
        if norm = [] then acc else dedupAppend acc norm)
      []

/-- Source `ExtractedArtifacts`. -/
structure ExtractedArtifacts where
  urls : List PyStr
  domains : List PyStr
  emails : List PyStr
  phones : List PyStr
deriving DecidableEq, Repr

/-- Source `extract_all`. -/
def extract_all (emailFinder phoneFinder : RegexMatcher) (text : PyStr) :
    ExtractedArtifacts :=
  let urls := extract_urls text
  { urls := urls, domains := extract_domains urls,
    emails := extract_emails emailFinder text,
    phones := extract_phones phoneFinder text }

/-! ## app/core/analyzer.py -/

/-- Source `_join_message_parts`.  Python truthiness: an optional string counts only
when present and nonempty, the attachments list only when present and
nonempty; falsy attachment names are skipped inside the loop. -/
def _join_message_parts (subject body from_email reply_to headers_raw : Option PyStr)
    (attachments : Option (List PyStr)) : PyStr :=
  let opt (label : PyStr) : Option PyStr → List PyStr
    | none => []
    | some s => if s = [] then [] else [label ++ s]
  let block (label : PyStr) : Option PyStr → List PyStr
    | none => []
    | some s => if s = [] then [] else [label, s]
  let att : List PyStr :=
    match attachments with
    | none => []
    | some [] => []
    | some fns =>
        pystr ("Attachments:")
          :: (fns.filterMap (fun fn => if fn = [] then none else some (pystr ("- ") ++ fn)))
  let parts : List PyStr :=
    opt (pystr ("Subject: ")) subject ++ opt (pystr ("From: ")) from_email ++
    opt (pystr ("Reply-To: ")) reply_to ++ block (pystr ("Headers:")) headers_raw ++
    block (pystr ("Body:")) body ++ att
  pyStripWS (List.intercalate ['\n'] parts)

/-- Source `Analyzer.analyze`, over an already-constructed engine (the constructor
is `from_yaml`): compose the text, extract artifacts, run the engine, score. -/
noncomputable def analyze (eng : RuleEngine) (net : Network) (now : Nat)
    (emailFinder phoneFinder : RegexMatcher)
    (subject body from_email reply_to headers_raw : Option PyStr)
    (attachments : Option (List PyStr)) : AnalysisResult :=
  let text := _join_message_parts subject body from_email reply_to headers_raw attachments
  let art := extract_all emailFinder phoneFinder text
  let ctx : AnalysisContext :=
    { urls := art.urls, domains := art.domains,
      emails := art.emails, phones := art.phones }
  score_to_result (eng.matchText net now text (some ctx))

/-! ## Concrete fixtures -/

/-- A regex compiler that rejects every pattern.  Fixtures built with it
carry keyword patterns only, so successful compilation also shows no regex
was compiled. -/
def rcNone : ReCompile := fun _ _ => none

/-- A network on which every call raises. -/
def netRaises : Network := fun _ => NetOutcome.raises

/-- A reputation service constructed without an API key: disabled, fresh
cache with the source defaults. -/
def disabledSvc : UrlReputationService :=
  mkReputationService (pystr ("")) (mkTTLCache 3600 2000)

/-- An analysis context with no extracted artifacts. -/
def emptyCtx : AnalysisContext :=
  { urls := [], domains := [], emails := [], phones := [] }

/-- A keyword-only rule fixture. -/
def mkKwRule (id : String) (kws : List String) (mode : MatchMode) : Rule :=
  { id := pystr id, title := pystr ("test rule"), weight := 10,
    severity := Severity.low,
    when := { matchMode := mode, any_keywords := kws.map pystr,
              regex := [], patterns := [] },
    explain := pystr ("test explain"), action := Action.allow,
    tags := [], enabled := true }

/-! ## C2 -/

/-- C2: the claim states `len(normalize_for_matching(text)) == len(text)` for
every input.  The code violates it: Python `str.lower` maps U+0130 to the two
code points U+0069 U+0307, so the one-character input U+0130 normalizes to a
two-character string — the character count changes, contradicting the
docstring of `normalize_for_matching` itself. -/
theorem C2_normalize_length_code_bug :
    normalize_for_matching [Char.ofNat 0x130] = [Char.ofNat 0x69, Char.ofNat 0x307] ∧
    (normalize_for_matching [Char.ofNat 0x130]).length ≠
      ([Char.ofNat 0x130] : PyStr).length := by
  decide

/-! ## C9 -/

/-- The input text of the URL cleaning round-trip example. -/
def c9text : PyStr :=
  pystr ("Click (https://example.com/path?a=1), then \"https://x.com/abc\"...")

/-- C9: on the example text, `extract_urls` returns exactly the two cleaned
URLs in first-appearance order, wrapping and trailing punctuation stripped. -/
theorem C9_extract_urls_example :
    extract_urls c9text =
      [pystr ("https://example.com/path?a=1"), pystr ("https://x.com/abc")] := by
  decide

/-! ## C1 -/

/-- An enabled rule with the single keyword `a`. -/
def ruleC1 : Rule := mkKwRule "R-KW-A" ["a"] MatchMode.any

/-- An engine holding only `ruleC1`, with the default evidence cap. -/
def engC1 : Except RulePackError RuleEngine :=
  RuleEngine.init rcNone disabledSvc [ruleC1] 20

/-- The analyzed text of a message whose body is U+0130 followed by `a`
(composed by `_join_message_parts`, length 8). -/
def textC1 : PyStr :=
  _join_message_parts none (some [Char.ofNat 0x130, 'a']) none none none none

/-- C1: the claim states every Evidence and TextHighlight span satisfies
`end <= len(original_text)`.  The code violates it: normalization lengthens
the haystack at U+0130, so the keyword `a` is found at index 8 of the
9-character haystack while the original text has length 8 — the analysis
emits Evidence and a TextHighlight with `start = 8`, `end = 9 > 8`. -/
theorem C1_offset_validity_code_bug :
    engC1.toOption.map (fun e =>
      let r := score_to_result (e.matchText netRaises 0 textC1 (some emptyCtx))
      (r.highlights.map (fun h => (h.start, h.stop)),
       r.hits.map (fun h => h.evidence.map (fun ev => (ev.start, ev.stop))),
       textC1.length))
      = some ([(8, 9)], [[(8, 9)]], 8) := by
  decide

/-! ## C3: counterexample -/

/-- Twenty-one single-letter keywords. -/
def kws21 : List String :=
  ["a", "b", "c", "d", "e", "f", "g", "h", "i", "j", "k",
   "l", "m", "n", "o", "p", "q", "r", "s", "t", "u"]

/-- An `all`-mode rule with 21 patterns, one more than the default evidence
cap of 20. -/
def ruleC3 : Rule := mkKwRule "R-ALL-CAP" kws21 MatchMode.all

/-- An engine holding only `ruleC3`, default `max_evidence_per_rule = 20`. -/
def engC3 : Except RulePackError RuleEngine :=
  RuleEngine.init rcNone disabledSvc [ruleC3] 20

/-- Text containing the first twenty keywords but not the twenty-first. -/
def textC3 : PyStr := pystr ("abcdefghijklmnopqrst")

/-- C3 counterexample: the claim (fires iff every pattern matches, one
evidence item per pattern) is false as stated.  This rule fires with 20
evidence items for its 21 patterns although its pattern `u` has no match in
the text — the evidence cap breaks out of the `all` loop with `ok = True`
before the failing pattern is ever tested. -/
theorem C3_all_mode_counterexample :
    engC3.toOption.map (fun e =>
      ((e.matchText netRaises 0 textC3 none).map
        (fun h => (h.rule_id, h.evidence.length)),
       strFind (normalize_for_matching textC3) (pystr ("u"))))
      = some ([(pystr ("R-ALL-CAP"), 20)], none) := by
  decide

/-! ## Scoring lemmas -/

lemma normalize_score_zero : normalize_score 0 = 0 := by
  unfold normalize_score
  have h0 : (max 0 (0 : ℤ)) = 0 := by decide
  rw [h0]
  norm_num

/-! ## C10 -/

/-- C10: analyzing a message whose every field is absent or empty yields the
all-clear result: score 0, severity low, action allow, recommendations
`[allow, educate_user]`, no hits, no highlights. -/
theorem C10_empty_analysis (eng : RuleEngine) (net : Network) (now : Nat)
    (emailFinder phoneFinder : RegexMatcher)
    (subject body from_email reply_to headers_raw : Option PyStr)
    (attachments : Option (List PyStr))
    (hs : subject = none ∨ subject = some [])
    (hb : body = none ∨ body = some [])
    (hf : from_email = none ∨ from_email = some [])
    (hr : reply_to = none ∨ reply_to = some [])
    (hh : headers_raw = none ∨ headers_raw = some [])
    (ha : attachments = none ∨ attachments = some []) :
    analyze eng net now emailFinder phoneFinder subject body from_email reply_to
        headers_raw attachments =
      { score := 0, severity := Severity.low, action := Action.allow,
        recommendations := [pystr ("allow"), pystr ("educate_user")],
        hits := [], highlights := [] } := by
  have htext :
      _join_message_parts subject body from_email reply_to headers_raw attachments = [] := by
    rcases hs with rfl | rfl <;> rcases hb with rfl | rfl <;> rcases hf with rfl | rfl <;>
      rcases hr with rfl | rfl <;> rcases hh with rfl | rfl <;> rcases ha with rfl | rfl <;> rfl
  have hres :
      analyze eng net now emailFinder phoneFinder subject body from_email reply_to
        headers_raw attachments = score_to_result [] := by
    unfold analyze
    rw [htext]
    rfl
  rw [hres]
  unfold score_to_result dedupByRuleId
  simp only [List.foldl_nil, List.map_nil, List.sum_nil, normalize_score_zero]
  rfl

/-- An engine holding no rules (the C10 theorem is engine-generic). -/
def engEmpty : RuleEngine :=
  { rules := [], max_evidence_per_rule := 20, compiled := [], reputation := disabledSvc }

/-- C10 witness: the theorem applied to the all-absent call. -/
theorem C10_empty_analysis_witness :
    analyze engEmpty netRaises 0 (fun _ => []) (fun _ => []) none none none none none none =
      { score := 0, severity := Severity.low, action := Action.allow,
        recommendations := [pystr ("allow"), pystr ("educate_user")],
        hits := [], highlights := [] } :=
  C10_empty_analysis engEmpty netRaises 0 (fun _ => []) (fun _ => []) none none none none
    none none (Or.inl rfl) (Or.inl rfl) (Or.inl rfl) (Or.inl rfl) (Or.inl rfl) (Or.inl rfl)

/-! ## C4 -/

lemma upsertHit_ids_nodup (acc : List RuleHit) (h : RuleHit)
    (hn : (acc.map RuleHit.rule_id).Nodup) :
    ((upsertHit acc h).map RuleHit.rule_id).Nodup := by
  unfold upsertHit
  split
  case isTrue hc =>
    have hmap :
        (acc.map (fun x => if x.rule_id = h.rule_id then h else x)).map RuleHit.rule_id
          = acc.map RuleHit.rule_id := by
      rw [List.map_map]
      apply List.map_congr_left
      intro x _
      by_cases hx : x.rule_id = h.rule_id
      · simp [hx]
      · simp [hx]
    rw [hmap]
    exact hn
  case isFalse hc =>
    rw [List.map_append]
    have hnotin : h.rule_id ∉ acc.map RuleHit.rule_id := by
      intro hmem
      rcases List.mem_map.mp hmem with ⟨x, hx, hid⟩
      exact hc (by rw [List.any_eq_true]; exact ⟨x, hx, by simp [hid]⟩)
    simp [List.nodup_append, hn, List.disjoint_right]
    intro a ha hmem
    exact hnotin (hmem ▸ List.mem_map_of_mem RuleHit.rule_id ha)

lemma foldl_upsert_ids_nodup :
    ∀ (hits : List RuleHit) (acc : List RuleHit),
      (acc.map RuleHit.rule_id).Nodup →
      ((hits.foldl upsertHit acc).map RuleHit.rule_id).Nodup
  | [], _, hn => hn
  | h :: hs, acc, hn =>
      foldl_upsert_ids_nodup hs (upsertHit acc h) (upsertHit_ids_nodup acc h hn)

lemma dedup_ids_nodup (hits : List RuleHit) :
    ((dedupByRuleId hits).map RuleHit.rule_id).Nodup :=
  foldl_upsert_ids_nodup hits [] (by simp)

/-- C4: the result keeps at most one hit per rule id (the mapped id list has
no duplicate, so each id occurs exactly 0 or 1 times; the hits list is the
insertion-ordered dedup of the input), and the score is the saturation of
`raw_points`, the sum of the weights of exactly those unique hits — so a
rule matching many times contributes its weight once. -/
theorem C4_dedup_raw_points (hits : List RuleHit) :
    ((score_to_result hits).hits.map RuleHit.rule_id).Nodup ∧
    (score_to_result hits).hits = dedupByRuleId hits ∧
    (score_to_result hits).score =
      normalize_score ((dedupByRuleId hits).map RuleHit.weight).sum := by
  exact ⟨dedup_ids_nodup hits, rfl, rfl⟩

/-! ## C5 -/

lemma exp_one_prod : Real.exp 1 * Real.exp (-1) = 1 := by
  rw [← Real.exp_add]
  norm_num

lemma exp_neg_one_lt : Real.exp (-1) < 0.3679 := by
  have he1 := Real.exp_one_gt_d9
  have hp := Real.exp_pos (-1)
  nlinarith [exp_one_prod]

lemma exp_neg_one_gt : (0.3678 : ℝ) < Real.exp (-1) := by
  have he2 := Real.exp_one_lt_d9
  have hp := Real.exp_pos (-1)
  nlinarith [exp_one_prod]

lemma exp_neg_two_eq : Real.exp (-2) = Real.exp (-1) * Real.exp (-1) := by
  rw [← Real.exp_add]
  norm_num

lemma exp_neg_two_lt : Real.exp (-2) < 0.1354 := by
  rw [exp_neg_two_eq]
  nlinarith [exp_neg_one_lt, exp_neg_one_gt, Real.exp_pos (-1)]

lemma exp_neg_two_gt : (0.135 : ℝ) < Real.exp (-2) := by
  rw [exp_neg_two_eq]
  nlinarith [exp_neg_one_lt, exp_neg_one_gt, Real.exp_pos (-1)]

lemma normalize_score_35 : normalize_score 35 = 63 := by
  unfold normalize_score
  have hmax : (max 0 (35 : ℤ)) = 35 := by decide
  rw [hmax]
  have harg : -(((35 : ℤ) : ℝ)) / 35 = -1 := by norm_num
  rw [harg]
  have hr : round ((100 : ℝ) * (1 - Real.exp (-1))) = 63 := by
    rw [round_eq]
    apply Int.floor_eq_iff.mpr
    constructor
    · push_cast
      nlinarith [exp_neg_one_lt]
    · push_cast
      nlinarith [exp_neg_one_gt]
  rw [hr]
  decide

lemma normalize_score_70 : normalize_score 70 = 86 := by
  unfold normalize_score
  have hmax : (max 0 (70 : ℤ)) = 70 := by decide
  rw [hmax]
  have harg : -(((70 : ℤ) : ℝ)) / 35 = -2 := by norm_num
  rw [harg]
  have hr : round ((100 : ℝ) * (1 - Real.exp (-2))) = 86 := by
    rw [round_eq]
    apply Int.floor_eq_iff.mpr
    constructor
    · push_cast
      nlinarith [exp_neg_two_lt]
    · push_cast
      nlinarith [exp_neg_two_gt]
  rw [hr]
  decide

/-- C5: the score is the clamped rounded saturation `round(100(1-e^(-raw/35)))`;
raw 35 scores 63 which maps to severity medium, raw 70 scores 86 which maps
to severity high, and every score lands in `[0, 100]`. -/
theorem C5_scoring_formula :
    normalize_score 35 = 63 ∧ severity_from_score 63 = Severity.medium ∧
    normalize_score 70 = 86 ∧ severity_from_score 86 = Severity.high ∧
    ∀ raw : Int, 0 ≤ normalize_score raw ∧ normalize_score raw ≤ 100 := by
  refine ⟨normalize_score_35, by decide, normalize_score_70, by decide, ?_⟩
  intro raw
  unfold normalize_score
  constructor
  · exact le_max_left _ _
  · exact max_le (by norm_num) (le_trans (min_le_left _ _) (by norm_num))

/-! ## C6 -/

lemma upsert_mem (acc : List RuleHit) (h x : RuleHit) (hx : x ∈ upsertHit acc h) :
    x ∈ acc ∨ x = h := by
  unfold upsertHit at hx
  split at hx
  case isTrue hc =>
    rcases List.mem_map.mp hx with ⟨y, hy, hxy⟩
    by_cases hyid : y.rule_id = h.rule_id
    · right
      rw [← hxy]
      simp [hyid]
    · left
      rw [← hxy]
      simpa [hyid] using hy
  case isFalse hc =>
    rcases List.mem_append.mp hx with h1 | h1
    · exact Or.inl h1
    · exact Or.inr (by simpa using h1)

lemma foldl_upsert_mem :
    ∀ (l acc : List RuleHit) (x : RuleHit), x ∈ l.foldl upsertHit acc → x ∈ acc ∨ x ∈ l
  | [], _, _, hx => Or.inl hx
  | h :: hs, acc, x, hx => by
      rcases foldl_upsert_mem hs (upsertHit acc h) x hx with h1 | h1
      · rcases upsert_mem acc h x h1 with h2 | h2
        · exact Or.inl h2
        · exact Or.inr (h2 ▸ List.mem_cons_self h hs)
      · exact Or.inr (List.mem_cons_of_mem h h1)

lemma dedup_mem (hits : List RuleHit) (x : RuleHit) (hx : x ∈ dedupByRuleId hits) :
    x ∈ hits := by
  rcases foldl_upsert_mem hits [] x hx with h1 | h1
  · cases h1
  · exact h1

lemma upsert_fresh (acc : List RuleHit) (h : RuleHit)
    (hfresh : ∀ x ∈ acc, x.rule_id ≠ h.rule_id) : upsertHit acc h = acc ++ [h] := by
  unfold upsertHit
  have hany : acc.any (fun x => x.rule_id = h.rule_id) = false := by
    rw [List.any_eq_false]
    intro x hx
    simpa using hfresh x hx
  simp [hany]

lemma dedup_append_fresh (hits : List RuleHit) (h : RuleHit)
    (hfresh : h.rule_id ∉ hits.map RuleHit.rule_id) :
    dedupByRuleId (hits ++ [h]) = dedupByRuleId hits ++ [h] := by
  unfold dedupByRuleId
  rw [List.foldl_append]
  simp only [List.foldl_cons, List.foldl_nil]
  apply upsert_fresh
  intro x hx he
  exact hfresh (he ▸ List.mem_map_of_mem RuleHit.rule_id (dedup_mem hits x hx))

lemma normalize_score_mono {a b : Int} (hab : a ≤ b) :
    normalize_score a ≤ normalize_score b := by
  unfold normalize_score
  have h1 : ((max 0 a : ℤ) : ℝ) ≤ ((max 0 b : ℤ) : ℝ) := by
    exact_mod_cast max_le_max (le_refl (0 : ℤ)) hab
  have h2 : Real.exp (-((max 0 b : ℤ) : ℝ) / 35) ≤ Real.exp (-((max 0 a : ℤ) : ℝ) / 35) :=
    Real.exp_le_exp.mpr (by linarith)
  have h3 : round ((100 : ℝ) * (1 - Real.exp (-((max 0 a : ℤ) : ℝ) / 35))) ≤
      round ((100 : ℝ) * (1 - Real.exp (-((max 0 b : ℤ) : ℝ) / 35))) := by
    rw [round_eq, round_eq]
    exact Int.floor_le_floor (by linarith)
  exact max_le_max (le_refl _) (min_le_min (le_refl _) h3)

lemma severity_from_score_mono {a b : Int} (hab : a ≤ b) :
    severityOrder (severity_from_score a) ≤ severityOrder (severity_from_score b) := by
  unfold severity_from_score
  split_ifs <;> simp [severityOrder] <;> omega

lemma max_severity_step (l : List RuleHit) (h : RuleHit) :
    severityOrder (_max_severity l) ≤ severityOrder (_max_severity (l ++ [h])) := by
  unfold _max_severity
  rw [List.foldl_append]
  simp only [List.foldl_cons, List.foldl_nil]
  split
  · omega
  · exact le_refl _

lemma score_to_result_severity_order (hits : List RuleHit) :
    severityOrder (score_to_result hits).severity =
      max (severityOrder (severity_from_score
            (normalize_score ((dedupByRuleId hits).map RuleHit.weight).sum)))
          (severityOrder (_max_severity (dedupByRuleId hits))) := by
  have hsev : (score_to_result hits).severity =
      (if severityOrder (_max_severity (dedupByRuleId hits)) >
          severityOrder (severity_from_score
            (normalize_score ((dedupByRuleId hits).map RuleHit.weight).sum))
       then _max_severity (dedupByRuleId hits)
       else severity_from_score
            (normalize_score ((dedupByRuleId hits).map RuleHit.weight).sum)) := rfl
  rw [hsev]
  split <;> omega

lemma strongestAction_ge_base :
    ∀ (l : List RuleHit) (base : Action),
      actionPriority base ≤ actionPriority (strongestAction base l)
  | [], _ => le_refl _
  | h :: hs, base => by
      simp only [strongestAction]
      refine le_trans ?_ (strongestAction_ge_base hs _)
      split
      · omega
      · exact le_refl _

lemma strongestAction_ge_hit :
    ∀ (l : List RuleHit) (base : Action) (h : RuleHit), h ∈ l →
      actionPriority h.action ≤ actionPriority (strongestAction base l)
  | [], _, h, hmem => absurd hmem (List.not_mem_nil h)
  | h0 :: hs, base, h, hmem => by
      simp only [strongestAction]
      rcases List.mem_cons.mp hmem with rfl | hmem2
      · refine le_trans ?_ (strongestAction_ge_base hs _)
        split
        · exact le_refl _
        · omega
      · exact strongestAction_ge_hit hs _ h hmem2

lemma strongestAction_cases :
    ∀ (l : List RuleHit) (base : Action),
      strongestAction base l = base ∨ ∃ h ∈ l, strongestAction base l = h.action
  | [], _ => Or.inl rfl
  | h0 :: hs, base => by
      simp only [strongestAction]
      rcases strongestAction_cases hs
          (if actionPriority h0.action > actionPriority base then h0.action else base) with
        heq | ⟨h, hm, heq⟩
      · rw [heq]
        split
        · exact Or.inr ⟨h0, List.mem_cons_self h0 hs, rfl⟩
        · exact Or.inl rfl
      · exact Or.inr ⟨h, List.mem_cons_of_mem h0 hm, heq⟩

lemma choose_action_eq (sev : Severity) (l : List RuleHit) :
    choose_action sev l = strongestAction (baseAction sev) l := by
  unfold choose_action
  rw [if_pos (strongestAction_ge_base l (baseAction sev))]

/-- C6: adding a fresh hit (its rule id not already present, weight
nonnegative as every Rule and context rule guarantees) never decreases the
final severity; and for every analysis the final action is the strongest of
the per-severity baseline and the actions of the unique hits under the priority
order allow < report < verify-out-of-band < block — at least the baseline,
at least the action of every hit, and equal to one of them. -/
theorem C6_severity_action_monotonicity :
    (∀ (hits : List RuleHit) (h : RuleHit),
      h.rule_id ∉ hits.map RuleHit.rule_id → 0 ≤ h.weight →
      severityOrder (score_to_result hits).severity ≤
        severityOrder (score_to_result (hits ++ [h])).severity) ∧
    (∀ hits : List RuleHit,
      actionPriority (baseAction (score_to_result hits).severity) ≤
          actionPriority (score_to_result hits).action ∧
      (∀ h ∈ (score_to_result hits).hits,
          actionPriority h.action ≤ actionPriority (score_to_result hits).action) ∧
      ((score_to_result hits).action = baseAction (score_to_result hits).severity ∨
        ∃ h ∈ (score_to_result hits).hits, (score_to_result hits).action = h.action)) := by
  constructor
  · intro hits h hfresh hw
    rw [score_to_result_severity_order, score_to_result_severity_order,
      dedup_append_fresh hits h hfresh]
    apply max_le_max
    · apply severity_from_score_mono
      apply normalize_score_mono
      rw [List.map_append, List.sum_append]
      simp only [List.map_cons, List.map_nil, List.sum_cons, List.sum_nil, add_zero]
      linarith
    · exact max_severity_step _ _
  · intro hits
    have hact : (score_to_result hits).action =
        strongestAction (baseAction (score_to_result hits).severity) (dedupByRuleId hits) := by
      rw [show (score_to_result hits).action =
            choose_action (score_to_result hits).severity (dedupByRuleId hits) from rfl,
          choose_action_eq]
    refine ⟨?_, ?_, ?_⟩
    · rw [hact]
      exact strongestAction_ge_base _ _
    · intro h hm
      rw [hact]
      exact strongestAction_ge_hit _ _ h hm
    · rw [hact]
      exact strongestAction_cases (dedupByRuleId hits) _

/-- A concrete high-severity blocking hit for the C6 witness. -/
def hitW : RuleHit :=
  { rule_id := pystr ("R-WITNESS"), title := pystr ("witness"), weight := 50,
    severity := Severity.high, action := Action.block, explain := pystr ("w"),
    tags := [],
    evidence := [{ kind := PatternType.keyword, pattern := pystr ("w"),
                   matched := pystr ("w"), start := 0, stop := 1,
                   snippet := pystr ("w"), label := none }] }

/-- C6 witness: the theorem applied at the empty hit list plus `hitW`. -/
theorem C6_monotonicity_witness :
    severityOrder (score_to_result []).severity ≤
        severityOrder (score_to_result ([] ++ [hitW])).severity ∧
    actionPriority (baseAction (score_to_result [hitW]).severity) ≤
        actionPriority (score_to_result [hitW]).action :=
  ⟨C6_severity_action_monotonicity.1 [] hitW (by decide) (by decide),
   (C6_severity_action_monotonicity.2 [hitW]).1⟩

/-! ## C3: amended statement -/

lemma allModeLoop_spec (text haystack : PyStr) :
    ∀ (ps : List CompiledPattern) (acc : List Evidence) (maxEv : Nat),
      acc.length + ps.length ≤ maxEv →
      allModeLoop maxEv text haystack ps acc =
        (if ∀ cp ∈ ps, _match_one cp text haystack ≠ [] then
          some (acc ++ ps.filterMap (fun cp => (_match_one cp text haystack).head?))
        else none)
  | [], acc, maxEv, _ => by simp [allModeLoop]
  | cp :: rest, acc, maxEv, hlen => by
      rw [List.length_cons] at hlen
      simp only [allModeLoop]
      cases hm : _match_one cp text haystack with
      | nil =>
          rw [if_neg]
          push_neg
          exact ⟨cp, List.mem_cons_self _ _, hm⟩
      | cons e es =>
          dsimp only
          by_cases hcap : (acc ++ [e]).length ≥ maxEv
          · have hr : rest = [] := by
              rw [List.length_append, List.length_singleton] at hcap
              have : rest.length = 0 := by omega
              exact List.length_eq_zero.mp this
            subst hr
            rw [if_pos hcap, if_pos]
            · simp [List.filterMap_cons, hm]
            · intro cp' hcp'
              rw [List.mem_singleton.mp hcp']
              simp [hm]
          · rw [if_neg hcap]
            rw [allModeLoop_spec text haystack rest (acc ++ [e]) maxEv
                  (by rw [List.length_append, List.length_singleton]; omega)]
            by_cases hall : ∀ cp' ∈ rest, _match_one cp' text haystack ≠ []
            · rw [if_pos hall, if_pos]
              · simp [List.filterMap_cons, hm]
              · intro cp' hcp'
                rcases List.mem_cons.mp hcp' with rfl | hmem
                · simp [hm]
                · exact hall cp' hmem
            · rw [if_neg hall, if_neg]
              intro hforall
              exact hall (fun cp' hcp' => hforall cp' (List.mem_cons_of_mem cp hcp'))

lemma allModeLoop_fail (text haystack : PyStr) :
    ∀ (ps : List CompiledPattern) (cp : CompiledPattern) (qs : List CompiledPattern)
      (acc : List Evidence) (maxEv : Nat),
      (∀ p ∈ ps, _match_one p text haystack ≠ []) →
      _match_one cp text haystack = [] →
      acc.length + ps.length < maxEv →
      allModeLoop maxEv text haystack (ps ++ cp :: qs) acc = none
  | [], cp, qs, acc, maxEv, _, hcp, _ => by simp [allModeLoop, hcp]
  | p :: ps', cp, qs, acc, maxEv, hps, hcp, hlen => by
      rw [List.length_cons] at hlen
      rw [List.cons_append]
      simp only [allModeLoop]
      cases hm : _match_one p text haystack with
      | nil => exact absurd hm (hps p (List.mem_cons_self _ _))
      | cons e es =>
          dsimp only
          rw [if_neg (by rw [List.length_append, List.length_singleton]; omega)]
          exact allModeLoop_fail text haystack ps' cp qs (acc ++ [e]) maxEv
            (fun q hq => hps q (List.mem_cons_of_mem p hq)) hcp
            (by rw [List.length_append, List.length_singleton]; omega)

/-- C3 amended: for an `all`-mode compiled rule with at least one pattern and
with no more patterns than the per-rule evidence cap, the rule fires iff
every pattern matches at least once; a fired hit carries exactly the first
evidence of each pattern in order; and pattern testing short-circuits — once
a pattern with no match is reached after only matching patterns, the rule
yields no hit whatever patterns follow it. -/
theorem C3_all_mode_amended (maxEv : Nat) (text haystack : PyStr) (cr : CompiledRule)
    (hmode : cr.match_mode = MatchMode.all) (hne : cr.patterns ≠ [])
    (hlen : cr.patterns.length ≤ maxEv) :
    ((matchCompiledRule maxEv text haystack cr).isSome ↔
        ∀ cp ∈ cr.patterns, _match_one cp text haystack ≠ []) ∧
    (∀ hit, matchCompiledRule maxEv text haystack cr = some hit →
        hit.evidence =
          cr.patterns.filterMap (fun cp => (_match_one cp text haystack).head?)) ∧
    (∀ ps cp qs qs2, cr.patterns = ps ++ cp :: qs →
        (∀ p ∈ ps, _match_one p text haystack ≠ []) →
        _match_one cp text haystack = [] →
        matchCompiledRule maxEv text haystack
          { cr with patterns := ps ++ cp :: qs2 } = none) := by
  have hspec := allModeLoop_spec text haystack cr.patterns [] maxEv (by simpa using hlen)
  have hfmne : (∀ cp ∈ cr.patterns, _match_one cp text haystack ≠ []) →
      cr.patterns.filterMap (fun cp => (_match_one cp text haystack).head?) ≠ [] := by
    intro hall
    obtain ⟨p0, ptl, hp⟩ := List.exists_cons_of_ne_nil hne
    have h0 := hall p0 (by rw [hp]; exact List.mem_cons_self _ _)
    obtain ⟨e, es, he⟩ := List.exists_cons_of_ne_nil h0
    rw [hp]
    simp [List.filterMap_cons, he]
  refine ⟨?_, ?_, ?_⟩
  · unfold matchCompiledRule
    rw [hmode, hspec]
    by_cases hall : ∀ cp ∈ cr.patterns, _match_one cp text haystack ≠ []
    · rw [if_pos hall]
      simp only [List.nil_append]
      rw [if_neg (hfmne hall)]
      simp only [Option.isSome_some, true_iff]
      exact hall
    · rw [if_neg hall]
      simp [hall]
  · intro hit heq
    unfold matchCompiledRule at heq
    rw [hmode, hspec] at heq
    by_cases hall : ∀ cp ∈ cr.patterns, _match_one cp text haystack ≠ []
    · rw [if_pos hall] at heq
      simp only [List.nil_append] at heq
      rw [if_neg (hfmne hall)] at heq
      simp only [Option.some.injEq] at heq
      rw [← heq]
      rfl
    · rw [if_neg hall] at heq
      cases heq
  · intro ps cp qs qs2 hsplit hps hcp
    unfold matchCompiledRule
    rw [show ({ cr with patterns := ps ++ cp :: qs2 } : CompiledRule).match_mode =
          cr.match_mode from rfl, hmode]
    have hb : ([] : List Evidence).length + ps.length < maxEv := by
      have h2 := hlen
      rw [hsplit, List.length_append, List.length_cons] at h2
      simp only [List.length_nil]
      omega
    rw [allModeLoop_fail text haystack ps cp qs2 [] maxEv hps hcp hb]

/-- Compiled keyword pattern fixture `a`. -/
def cpA : CompiledPattern :=
  { raw := { type_ := PatternType.keyword, value := pystr ("a"), flags := none,
             label := some (pystr ("keyword")) },
    kind := PatternType.keyword, keyword := some (pystr ("a")) }

/-- Compiled keyword pattern fixture `b`. -/
def cpB : CompiledPattern :=
  { raw := { type_ := PatternType.keyword, value := pystr ("b"), flags := none,
             label := some (pystr ("keyword")) },
    kind := PatternType.keyword, keyword := some (pystr ("b")) }

/-- An `all`-mode compiled rule with the two keyword patterns. -/
def crW : CompiledRule :=
  { rule := mkKwRule "R-AB" ["a", "b"] MatchMode.all,
    match_mode := MatchMode.all, patterns := [cpA, cpB] }

/-- C3 witness: the amended theorem applied to the two-pattern rule under the
default cap on a text where both patterns match, so the rule fires. -/
theorem C3_all_mode_amended_witness :
    (matchCompiledRule 20 (pystr ("ab")) (normalize_for_matching (pystr ("ab"))) crW).isSome
      = true :=
  ((C3_all_mode_amended 20 (pystr ("ab")) (normalize_for_matching (pystr ("ab"))) crW rfl
    (by simp [crW]) (by simp [crW])).1).mpr (by decide)

/-! ## C7 -/

lemma validateItems_append_error :
    ∀ (pre : List YamlItem) (k : Nat) (l : List YamlItem) (err : RulePackError),
      (∀ it ∈ pre, ∃ rr r, it = YamlItem.dict rr ∧ model_validate rr = some r) →
      validateItems (k + pre.length) l = Except.error err →
      validateItems k (pre ++ l) = Except.error err
  | [], k, l, err, _, herr => by simpa using herr
  | itm :: pre', k, l, err, hpre, herr => by
      obtain ⟨rr, r, rfl, hval⟩ := hpre itm (List.mem_cons_self _ _)
      have hrec : validateItems (k + 1) (pre' ++ l) = Except.error err := by
        apply validateItems_append_error pre' (k + 1) l err
          (fun x hx => hpre x (List.mem_cons_of_mem _ hx))
        rw [show k + 1 + pre'.length = k + (YamlItem.dict rr :: pre').length by
          rw [List.length_cons]; omega]
        exact herr
      simp only [List.cons_append, validateItems, hval, List.append_eq, hrec]

lemma compileRules_ok_all (rc : ReCompile) :
    ∀ (rules : List Rule) (crs : List CompiledRule),
      compileRules rc rules = Except.ok crs →
      crs.length = rules.length ∧ ∀ r ∈ rules, ∃ cr, _compile_rule rc r = Except.ok cr
  | [], crs, h => by
      cases h
      exact ⟨rfl, by simp⟩
  | r :: rs, crs, h => by
      cases hcr : _compile_rule rc r with
      | error e =>
          simp only [compileRules, hcr] at h
          exact Except.noConfusion h
      | ok cr =>
          cases hcrs : compileRules rc rs with
          | error e =>
              simp only [compileRules, hcr, hcrs] at h
              exact Except.noConfusion h
          | ok crs' =>
              simp only [compileRules, hcr, hcrs, Except.ok.injEq] at h
              obtain ⟨hl, hall⟩ := compileRules_ok_all rc rs crs' hcrs
              constructor
              · rw [← h, List.length_cons, List.length_cons, hl]
              · intro x hx
                rcases List.mem_cons.mp hx with rfl | hmem
                · exact ⟨cr, hcr⟩
                · exact hall x hmem

lemma compilePatterns_fail (rc : ReCompile) (ruleId : PyStr) (err : RulePackError) :
    ∀ (pre : List RulePattern) (p : RulePattern) (post : List RulePattern),
      (∀ q ∈ pre, ∃ cq, compileOnePattern rc ruleId q = Except.ok cq) →
      compileOnePattern rc ruleId p = Except.error err →
      compilePatterns rc ruleId (pre ++ p :: post) = Except.error err
  | [], p, post, _, hp => by
      simp only [List.nil_append, compilePatterns, hp]
  | q :: pre', p, post, hpre, hp => by
      obtain ⟨cq, hq⟩ := hpre q (List.mem_cons_self _ _)
      have hrec : compilePatterns rc ruleId (pre' ++ p :: post) = Except.error err :=
        compilePatterns_fail rc ruleId err pre' p post
          (fun x hx => hpre x (List.mem_cons_of_mem _ hx)) hp
      simp only [List.cons_append, compilePatterns, hq, List.append_eq, hrec]

/-- C7: loading fails with the structured error naming the problem — missing
path, YAML parse failure, non-array document, first non-mapping entry (by
index), first schema-invalid record (by index and raw id), a rule with zero
effective patterns, or the first regex that does not compile; a successful
`__init__` has filtered the disabled rules out, compiled one matcher set per
remaining rule, and every enabled rule compiled — so no partial engine ever
exists; and a fully validated document loads through `__init__`. -/
theorem C7_from_yaml_fail_fast (rc : ReCompile) (svc : UrlReputationService)
    (maxEv : Int) :
    (∀ parsed, from_yaml rc svc false parsed maxEv =
        Except.error RulePackError.notFound) ∧
    (∀ e, from_yaml rc svc true (Except.error e) maxEv =
        Except.error RulePackError.parseFailed) ∧
    (from_yaml rc svc true (Except.ok YamlDoc.nonList) maxEv =
        Except.error RulePackError.notList) ∧
    (∀ pre rest,
        (∀ it ∈ pre, ∃ rr r, it = YamlItem.dict rr ∧ model_validate rr = some r) →
        from_yaml rc svc true
            (Except.ok (YamlDoc.list (pre ++ YamlItem.nonDict :: rest))) maxEv =
          Except.error (RulePackError.itemNotMapping pre.length)) ∧
    (∀ pre rr rest,
        (∀ it ∈ pre, ∃ rr0 r, it = YamlItem.dict rr0 ∧ model_validate rr0 = some r) →
        model_validate rr = none →
        from_yaml rc svc true
            (Except.ok (YamlDoc.list (pre ++ YamlItem.dict rr :: rest))) maxEv =
          Except.error (RulePackError.invalidSchema pre.length rr.id)) ∧
    (∀ r : Rule, effectivePatterns r = [] →
        _compile_rule rc r = Except.error (RulePackError.noMatchers r.id)) ∧
    (∀ (r : Rule) (p : RulePattern) pre post, effectivePatterns r = pre ++ p :: post →
        (∀ q ∈ pre, ∃ cq, compileOnePattern rc r.id q = Except.ok cq) →
        p.type_ = PatternType.regex → rc p.value (_compile_flags p.flags) = none →
        _compile_rule rc r = Except.error (RulePackError.invalidRegex r.id p.value)) ∧
    (∀ rules eng, RuleEngine.init rc svc rules maxEv = Except.ok eng →
        eng.rules = rules.filter (fun r => r.enabled) ∧
        eng.compiled.length = eng.rules.length ∧
        ∀ r ∈ rules, r.enabled = true → ∃ cr, _compile_rule rc r = Except.ok cr) ∧
    (∀ items rules, validateItems 0 items = Except.ok rules →
        from_yaml rc svc true (Except.ok (YamlDoc.list items)) maxEv =
          RuleEngine.init rc svc rules maxEv) := by
  refine ⟨fun _ => rfl, fun _ => rfl, rfl, ?_, ?_, ?_, ?_, ?_, ?_⟩
  · intro pre rest hpre
    have hv : validateItems 0 (pre ++ YamlItem.nonDict :: rest) =
        Except.error (RulePackError.itemNotMapping pre.length) := by
      apply validateItems_append_error pre 0 _ _ hpre
      rw [Nat.zero_add]
      rfl
    simp only [from_yaml, hv]
    rfl
  · intro pre rr rest hpre hrr
    have hv : validateItems 0 (pre ++ YamlItem.dict rr :: rest) =
        Except.error (RulePackError.invalidSchema pre.length rr.id) := by
      apply validateItems_append_error pre 0 _ _ hpre
      rw [Nat.zero_add]
      simp only [validateItems, hrr]
    simp only [from_yaml, hv]
    rfl
  · intro r hempty
    unfold _compile_rule
    rw [hempty]
    rfl
  · intro r p pre post hsplit hpre htype hrc
    have hp : compileOnePattern rc r.id p =
        Except.error (RulePackError.invalidRegex r.id p.value) := by
      unfold compileOnePattern
      rw [htype, hrc]
    unfold _compile_rule
    rw [hsplit, compilePatterns_fail rc r.id _ pre p post hpre hp]
  · intro rules eng hok
    cases hcrs : compileRules rc (rules.filter (fun r => r.enabled)) with
    | error e =>
        simp only [RuleEngine.init, hcrs] at hok
        exact Except.noConfusion hok
    | ok crs =>
        simp only [RuleEngine.init, hcrs, Except.ok.injEq] at hok
        obtain ⟨hl, hall⟩ := compileRules_ok_all rc _ crs hcrs
        refine ⟨by rw [← hok], ?_, ?_⟩
        · rw [← hok]
          exact hl
        · intro r hr hen
          exact hall r (List.mem_filter.mpr ⟨hr, by simp [hen]⟩)
  · intro items rules hv
    simp only [from_yaml, hv]
    rfl

/-- A raw rule record that fails schema validation (no fields at all). -/
def rawEmpty : RawRule := {}

/-- A rule whose single regex pattern `(` fails to compile under `rcNone`. -/
def ruleBadRegex : Rule :=
  { id := pystr ("R-REGEX"), title := pystr ("bad regex"), weight := 10,
    severity := Severity.low,
    when := { matchMode := MatchMode.any, any_keywords := [],
              regex := [pystr ("(")], patterns := [] },
    explain := pystr ("bad"), action := Action.allow, tags := [], enabled := true }

/-- A rule with no effective patterns (only a whitespace keyword). -/
def ruleNoPatterns : Rule :=
  { id := pystr ("R-EMPTY"), title := pystr ("no patterns"), weight := 10,
    severity := Severity.low,
    when := { matchMode := MatchMode.any, any_keywords := [pystr (" ")],
              regex := [], patterns := [] },
    explain := pystr ("none"), action := Action.allow, tags := [], enabled := true }

/-- C7 witness: the theorem applied at concrete failing documents — a missing
path, a parse failure, a non-array document, a non-mapping first entry, a
schema-invalid first entry, a rule with zero effective patterns, and a rule
whose regex fails to compile. -/
theorem C7_from_yaml_witness :
    from_yaml rcNone disabledSvc false (Except.ok YamlDoc.nonList) 20 =
        Except.error RulePackError.notFound ∧
    from_yaml rcNone disabledSvc true (Except.error ()) 20 =
        Except.error RulePackError.parseFailed ∧
    from_yaml rcNone disabledSvc true (Except.ok YamlDoc.nonList) 20 =
        Except.error RulePackError.notList ∧
    from_yaml rcNone disabledSvc true
        (Except.ok (YamlDoc.list ([] ++ YamlItem.nonDict :: []))) 20 =
      Except.error (RulePackError.itemNotMapping 0) ∧
    from_yaml rcNone disabledSvc true
        (Except.ok (YamlDoc.list ([] ++ YamlItem.dict rawEmpty :: []))) 20 =
      Except.error (RulePackError.invalidSchema 0 none) ∧
    _compile_rule rcNone ruleNoPatterns =
        Except.error (RulePackError.noMatchers (pystr ("R-EMPTY"))) ∧
    _compile_rule rcNone ruleBadRegex =
        Except.error (RulePackError.invalidRegex (pystr ("R-REGEX")) (pystr ("("))) := by
  have hc := C7_from_yaml_fail_fast rcNone disabledSvc 20
  refine ⟨hc.1 _, hc.2.1 (), hc.2.2.1, ?_, ?_, ?_, ?_⟩
  · exact hc.2.2.2.1 [] [] (by intro it h; cases h)
  · exact hc.2.2.2.2.1 [] rawEmpty [] (by intro it h; cases h) (by decide)
  · exact hc.2.2.2.2.2.1 ruleNoPatterns (by decide)
  · exact hc.2.2.2.2.2.2.1 ruleBadRegex
      { type_ := PatternType.regex, value := pystr ("("), flags := none,
        label := some (pystr ("regex")) } [] []
      (by decide) (by intro q h; cases h) rfl rfl

/-! ## C8 -/

lemma purge_sub (c : TTLCache) (now target : Nat) :
    ∀ kv ∈ (c.purge now target).data, kv ∈ c.data := by
  intro kv hkv
  simp only [TTLCache.purge] at hkv
  split at hkv
  · exact (List.mem_filter.mp hkv).1
  · exact (List.mem_filter.mp (List.mem_of_mem_drop hkv)).1

lemma set_none_preserves (c : TTLCache) (now : Nat) (key : PyStr)
    (hall : ∀ kv ∈ c.data, kv.2.value = none) :
    ∀ kv ∈ (c.set now key none).data, kv.2.value = none := by
  have aux : ∀ c1 : TTLCache, (∀ kv ∈ c1.data, kv.2.value = none) →
      ∀ kv ∈ (if (cacheLookup c1.data key).isSome = true then
          ({ ttl := c1.ttl, maxItems := c1.maxItems,
             data := c1.data.map (fun kv => if kv.1 = key then
               (kv.1, { value := none, expiresAt := now + c1.ttl }) else kv) } : TTLCache)
        else { ttl := c1.ttl, maxItems := c1.maxItems,
               data := c1.data ++ [(key, { value := none, expiresAt := now + c1.ttl })] }).data,
        kv.2.value = none := by
    intro c1 h1 kv hkv
    split at hkv
    · rcases List.mem_map.mp hkv with ⟨kv0, hkv0, hmapped⟩
      by_cases hk : kv0.1 = key
      · rw [← hmapped]
        simp [hk]
      · rw [← hmapped]
        simp only [hk, if_false]
        exact h1 kv0 hkv0
    · rcases List.mem_append.mp hkv with hmem | hmem
      · exact h1 kv hmem
      · simp only [List.mem_singleton] at hmem
        rw [hmem]
  intro kv hkv
  simp only [TTLCache.set] at hkv
  split at hkv
  · exact aux _ (fun kv h => hall kv (purge_sub c now _ kv h)) kv hkv
  · exact aux _ hall kv hkv

lemma get_all_none (c : TTLCache) (now : Nat) (key : PyStr)
    (hall : ∀ kv ∈ c.data, kv.2.value = none) :
    (c.get now key).1 = none ∧
      ∀ kv ∈ (c.get now key).2.data, kv.2.value = none := by
  unfold TTLCache.get
  cases hlk : cacheLookup c.data key with
  | none => exact ⟨rfl, hall⟩
  | some ent =>
      dsimp only
      by_cases hexp : ent.expiresAt ≤ now
      · rw [if_pos hexp]
        refine ⟨rfl, fun kv hkv => hall kv ?_⟩
        exact (List.mem_filter.mp hkv).1
      · rw [if_neg hexp]
        refine ⟨?_, hall⟩
        unfold cacheLookup at hlk
        cases hf : c.data.find? (fun kv => kv.1 = key) with
        | none => rw [hf] at hlk; cases hlk
        | some kv =>
            rw [hf] at hlk
            simp at hlk
            rw [← hlk]
            exact hall kv (List.mem_of_find?_eq_some hf)

lemma lookup_domain_all_none (svc : UrlReputationService) (net : Network) (now : Nat)
    (d : PyStr) (hnet : ∀ u, net u = NetOutcome.raises)
    (hall : ∀ kv ∈ svc.cache.data, kv.2.value = none) :
    (lookup_domain svc net now d).1 = none ∧
      ∀ kv ∈ (lookup_domain svc net now d).2.data, kv.2.value = none := by
  simp only [lookup_domain]
  split
  · exact ⟨rfl, hall⟩
  · have hget := get_all_none svc.cache now (pystr ("vt:domain:") ++ pyLower (pyStripWS d)) hall
    cases hg : svc.cache.get now (pystr ("vt:domain:") ++ pyLower (pyStripWS d)) with
    | mk fst snd =>
        rw [hg] at hget
        cases fst with
        | some r => exact absurd hget.1 (by simp)
        | none =>
            rw [hnet _]
            exact ⟨rfl, set_none_preserves snd now _ hget.2⟩

lemma reputationScan_all_none (net : Network) (now : Nat)
    (hnet : ∀ u, net u = NetOutcome.raises) :
    ∀ (ds : List PyStr) (svc : UrlReputationService),
      (∀ kv ∈ svc.cache.data, kv.2.value = none) →
      (reputationScan net now ds svc).1 = []
  | [], _, _ => rfl
  | d :: ds, svc, hall => by
      have h := lookup_domain_all_none svc net now d hnet hall
      simp only [reputationScan, h.1]
      exact reputationScan_all_none net now hnet ds _ h.2

lemma mem_opt_hit {h : RuleHit} {cond : Prop} [Decidable cond] {eopt : Option Evidence}
    {mk : Evidence → RuleHit}
    (hm : h ∈ (if cond then ([] : List RuleHit)
      else match eopt with | some ev => [mk ev] | none => [])) :
    ∃ ev, h = mk ev := by
  split at hm
  · cases hm
  · cases eopt with
    | some ev => exact ⟨ev, by simpa using hm⟩
    | none => cases hm

lemma context_hits_disabled_no_reputation (svc : UrlReputationService) (net : Network)
    (now : Nat) (text haystack : PyStr) (ctx : AnalysisContext)
    (hdis : svc.enabled = false) :
    ∀ h ∈ _context_hits svc net now text haystack ctx,
      h.rule_id ≠ pystr ("CTX-URL-REPUTATION"):= by
  intro h hm
  simp only [_context_hits] at hm
  rw [hdis] at hm
  simp only [Bool.false_eq_true, if_false, List.append_nil, List.mem_append] at hm
  rcases hm with (hm | hm) | hm
  all_goals
    split at hm
    · exact absurd hm (List.not_mem_nil h)
    · split at hm
      · rw [List.mem_singleton] at hm
        subst hm
        first
          | exact (by decide : pystr ("CTX-URL-SHORTENER") ≠ pystr ("CTX-URL-REPUTATION"))
          | exact (by decide : pystr ("CTX-URL-PUNYCODE") ≠ pystr ("CTX-URL-REPUTATION"))
          | exact (by decide : pystr ("CTX-URL-SUBDOMAINS") ≠ pystr ("CTX-URL-REPUTATION"))
      · exact absurd hm (List.not_mem_nil h)

lemma context_hits_scan_nil_eq (svc : UrlReputationService) (net : Network) (now : Nat)
    (text haystack : PyStr) (ctx : AnalysisContext)
    (hscan : (reputationScan net now ctx.domains svc).1 = []) :
    _context_hits svc net now text haystack ctx =
      _context_hits { svc with enabled := false } net now text haystack ctx := by
  simp only [_context_hits]
  rw [hscan]
  simp

lemma matchCompiledRule_rule_id (maxEv : Nat) (text haystack : PyStr)
    (cr : CompiledRule) (hit : RuleHit)
    (h : matchCompiledRule maxEv text haystack cr = some hit) :
    hit.rule_id = cr.rule.id := by
  simp only [matchCompiledRule] at h
  split at h
  · split at h
    · split at h
      · exact absurd h (by simp)
      · injection h with h'
        rw [← h']
        rfl
    · exact absurd h (by simp)
  · split at h
    · exact absurd h (by simp)
    · injection h with h'
      rw [← h']
      rfl

/-- C8: with the collaborator enabled, a fresh cache, and every network call
raising — (i) each domain lookup that reaches the network returns no
intelligence and caches the `None` failure marker under its `vt:domain:` key;
(ii) the context rules produce exactly what a disabled collaborator would
produce, so every shortener/punycode/subdomain hit survives unchanged;
(iii) no context hit is `CTX-URL-REPUTATION`; and (iv) the final
`AnalysisResult` of any analysis through such an engine contains no
`CTX-URL-REPUTATION` hit, while the analysis still completes (it is a total
function into a full result). -/
theorem C8_reputation_fail_closed (svc : UrlReputationService) (net : Network) (now : Nat)
    (hen : svc.enabled = true) (hnet : ∀ u, net u = NetOutcome.raises)
    (hcache : svc.cache.data = []) (hmax : 0 < svc.cache.maxItems) :
    (∀ d : PyStr, pyLower (pyStripWS d) ≠ [] →
        (lookup_domain svc net now d).1 = none ∧
        cacheLookup (lookup_domain svc net now d).2.data
            (pystr ("vt:domain:") ++ pyLower (pyStripWS d)) =
          some { value := none, expiresAt := now + svc.cache.ttl }) ∧
    (∀ (text haystack : PyStr) (ctx : AnalysisContext),
        _context_hits svc net now text haystack ctx =
          _context_hits { svc with enabled := false } net now text haystack ctx) ∧
    (∀ (text haystack : PyStr) (ctx : AnalysisContext),
        ∀ h ∈ _context_hits svc net now text haystack ctx,
          h.rule_id ≠ pystr ("CTX-URL-REPUTATION")) ∧
    (∀ (eng : RuleEngine) (text : PyStr) (ctx : Option AnalysisContext) (h : RuleHit),
        eng.reputation = svc →
        (∀ cr ∈ eng.compiled, cr.rule.id ≠ pystr ("CTX-URL-REPUTATION")) →
        h ∈ (score_to_result (eng.matchText net now text ctx)).hits →
        h.rule_id ≠ pystr ("CTX-URL-REPUTATION")) := by
  have hallnil : ∀ kv ∈ svc.cache.data, kv.2.value = none := by
    rw [hcache]
    intro kv h
    cases h
  have hscan : ∀ ctx : AnalysisContext, (reputationScan net now ctx.domains svc).1 = [] :=
    fun ctx => reputationScan_all_none net now hnet ctx.domains svc hallnil
  have heq : ∀ (text haystack : PyStr) (ctx : AnalysisContext),
      _context_hits svc net now text haystack ctx =
        _context_hits { svc with enabled := false } net now text haystack ctx :=
    fun text haystack ctx => context_hits_scan_nil_eq svc net now text haystack ctx (hscan ctx)
  have hnorep : ∀ (text haystack : PyStr) (ctx : AnalysisContext),
      ∀ h ∈ _context_hits svc net now text haystack ctx,
        h.rule_id ≠ pystr ("CTX-URL-REPUTATION") := by
    intro text haystack ctx h hm
    rw [heq text haystack ctx] at hm
    exact context_hits_disabled_no_reputation _ net now text haystack ctx rfl h hm
  refine ⟨?_, heq, hnorep, ?_⟩
  · intro d hd
    simp only [lookup_domain]
    rw [if_neg (by
      intro hor
      rcases hor with h1 | h1
      · exact hd h1
      · rw [hen] at h1; cases h1)]
    have hget : svc.cache.get now (pystr ("vt:domain:") ++ pyLower (pyStripWS d)) =
        (none, svc.cache) := by
      unfold TTLCache.get cacheLookup
      rw [hcache]
      rfl
    rw [hget, hnet _]
    refine ⟨rfl, ?_⟩
    simp only [TTLCache.set]
    have hno : ¬ svc.cache.data.length ≥ svc.cache.maxItems := by
      rw [hcache]
      simp only [List.length_nil]
      omega
    rw [if_neg hno]
    rw [show cacheLookup svc.cache.data (pystr ("vt:domain:") ++ pyLower (pyStripWS d)) =
          none by rw [hcache]; rfl]
    simp only [Option.isSome_none, Bool.false_eq_true, if_false]
    rw [hcache]
    unfold cacheLookup
    simp
  · intro eng text ctx h hrep hids hmem
    have hmem2 : h ∈ eng.matchText net now text ctx :=
      dedup_mem _ h hmem
    simp only [RuleEngine.matchText] at hmem2
    split at hmem2
    · cases hmem2
    · rcases List.mem_append.mp hmem2 with hy | hc
      · rcases List.mem_filterMap.mp hy with ⟨cr, hcr, hsome⟩
        rw [matchCompiledRule_rule_id _ _ _ cr h hsome]
        exact hids cr hcr
      · cases ctx with
        | none => cases hc
        | some c =>
            rw [hrep] at hc
            exact hnorep text (normalize_for_matching text) c h hc

/-- An enabled reputation service with a fresh default cache. -/
def svcW8 : UrlReputationService :=
  mkReputationService (pystr ("key")) (mkTTLCache 3600 2000)

/-- Message text containing a shortened URL. -/
def textW8 : PyStr := pystr ("visit https://bit.ly/abc123 now")

/-- Context extracted from `textW8`. -/
def ctxW8 : AnalysisContext :=
  { urls := [pystr ("https://bit.ly/abc123")], domains := [pystr ("bit.ly")],
    emails := [], phones := [] }

/-- C8 witness: the theorem applied to an enabled service whose every network
call raises, on a message carrying a shortener URL. -/
theorem C8_reputation_witness :
    ((lookup_domain svcW8 netRaises 5 (pystr ("evil.com"))).1 = none ∧
      cacheLookup (lookup_domain svcW8 netRaises 5 (pystr ("evil.com"))).2.data
          (pystr ("vt:domain:") ++ pyLower (pyStripWS (pystr ("evil.com")))) =
        some { value := none, expiresAt := 5 + svcW8.cache.ttl }) ∧
    _context_hits svcW8 netRaises 5 textW8 (normalize_for_matching textW8) ctxW8 =
      _context_hits { svcW8 with enabled := false } netRaises 5 textW8
        (normalize_for_matching textW8) ctxW8 := by
  have hc := C8_reputation_fail_closed svcW8 netRaises 5 rfl (fun _ => rfl) rfl (by decide)
  exact ⟨hc.1 (pystr ("evil.com")) (by decide), hc.2.1 textW8 (normalize_for_matching textW8) ctxW8⟩

end PhishShield
